import Mathlib

/-!
Shoot controller of gardener: reconciliation scheduling and lifecycle control.

A shallow embedding of `pkg/controller/shoot/shoot_control.go`.

* Go `int64` values (durations and Unix nanoseconds) are integers, every
  arithmetic operation wrapping to 64 bits (`wrapInt64`).
* A Go `error` is a `GoError`; `nil` is `none`.
* Calls that leave the function (work queue, event recorder, status updates,
  the delegated reconcile and delete flows) are recorded, in program order, in
  a list of `Effect`s. Their results are read from `Outcomes`.
* Run-time panics (nil dereference, integer division by zero) are explicit:
  `scheduleNextSync` returns an `Option`, `reconcileShootKey` a `Completion`.
* Log lines are not recorded.
-/

namespace Gardener

/-! ## Machine integers -/

/-- The least `int64`. -/
def minInt64 : Int := -9223372036854775808

/-- The greatest `int64`. -/
def maxInt64 : Int := 9223372036854775807

/-- Two's complement reduction of an integer to the `int64` range. -/
def wrapInt64 (x : Int) : Int :=
  (x + 9223372036854775808) % 18446744073709551616 - 9223372036854775808

/-- Go `a + b` on `int64`. -/
def addInt64 (a b : Int) : Int := wrapInt64 (a + b)

/-- Go `a - b` on `int64`. -/
def subInt64 (a b : Int) : Int := wrapInt64 (a - b)

/-- Go `a % b` on `int64`: the remainder of the division truncated towards
zero (its sign is the sign of `a`); `none` is the run-time panic for `b = 0`. -/
def remInt64 (a b : Int) : Option Int :=
  if b = 0 then none else some (wrapInt64 (Int.tmod a b))

/-- The constant `time.Minute`, in nanoseconds. -/
def Minute : Int := 60000000000

/-! ## Data model -/

/-- A Go `error` value: its message, and whether `apierrors.IsNotFound` holds of it. -/
structure GoError where
  Message : String
  IsNotFound : Bool
  deriving DecidableEq, Repr

/-- Go `errors.New`. -/
def errorsNew (text : String) : GoError := { Message := text, IsNotFound := false }

/-- Modelled from the spec: the type `gardenv1beta1.ShootLastOperationType`
(declared outside the sources at hand), with the values the spec lists. -/
inductive ShootLastOperationType where
  | Create
  | Reconcile
  | Delete
  deriving DecidableEq, Repr

/-- Modelled from the spec: the type `gardenv1beta1.ShootLastOperationState`
(declared outside the sources at hand), with the values the spec lists. -/
inductive ShootLastOperationState where
  | Processing
  | Succeeded
  | Failed
  deriving DecidableEq, Repr

/-- The fields of `gardenv1beta1.LastOperation` the controller reads. -/
structure LastOperation where
  Type_ : ShootLastOperationType
  State : ShootLastOperationState
  Description : String
  deriving DecidableEq, Repr

/-- The failure value `*gardenv1beta1.LastError` of a delegated flow. -/
structure LastError where
  Description : String
  Codes : List String
  deriving DecidableEq, Repr

/-- The fields of `metav1.ObjectMeta` the controller reads. `CreationTimestamp`
is the value of `CreationTimestamp.UnixNano()`; `DeletionTimestamp` is `none`
for a nil pointer and otherwise the textual encoding of the timestamp;
`Annotations` is the map as an association list (first binding wins). -/
structure ObjectMeta where
  Name : String
  Namespace : String
  Generation : Int
  CreationTimestamp : Int
  DeletionTimestamp : Option String
  Finalizers : List String
  Annotations : List (String × String)
  deriving DecidableEq, Repr

/-- The fields of `gardenv1beta1.ShootStatus` the controller reads. -/
structure ShootStatus where
  LastOperation : Option LastOperation
  ObservedGeneration : Int
  deriving DecidableEq, Repr

/-- The resource `gardenv1beta1.Shoot`. -/
structure Shoot where
  Meta : ObjectMeta
  Status : ShootStatus
  deriving DecidableEq, Repr

/-- The type `componentconfig.ShootControllerConfiguration`: `SyncPeriod` is a
`metav1.Duration` in nanoseconds, the two pointer fields are `none` when nil. -/
structure ShootControllerConfiguration where
  SyncPeriod : Int
  RetrySyncPeriod : Option Int
  RespectSyncPeriodOverwrite : Option Bool
  deriving DecidableEq, Repr

/-- Declarations the controller takes from other packages and that are not
part of the sources at hand: three string constants and the duration parser
of the Go library. Every result below holds for all values of them. -/
structure Imports where
  /-- Constant `gardenv1beta1.GardenerName`, the finalizer of the controller. -/
  GardenerName : String
  /-- Constant `common.ConfirmationDeletionTimestamp`, an annotation key. -/
  ConfirmationDeletionTimestamp : String
  /-- Constant `common.ShootSyncPeriod`, an annotation key. -/
  ShootSyncPeriod : String
  /-- Function `time.ParseDuration`, the result in nanoseconds. -/
  ParseDuration : String → Except GoError Int

/-- The constants `corev1.EventTypeNormal` and `corev1.EventTypeWarning`. -/
inductive EventType where
  | Normal
  | Warning
  deriving DecidableEq, Repr

/-- The event reasons `gardenv1beta1.ShootEvent*` used by `ReconcileShoot`,
by the name of the constant. -/
inductive EventReason where
  | ShootEventDeleting
  | ShootEventDeleteError
  | ShootEventDeleted
  | ShootEventReconciling
  | ShootEventReconcileError
  | ShootEventReconciled
  deriving DecidableEq, Repr

/-- A call that leaves the controller function under study. -/
inductive Effect where
  /-- Call `c.shootQueue.Add(key)`. -/
  | Add (key : String)
  /-- Call `c.shootQueue.AddAfter(key, duration)`. -/
  | AddAfter (key : String) (duration : Int)
  /-- Call `c.shootQueue.Forget(key)`. -/
  | Forget (key : String)
  /-- Call `c.control.ReconcileShoot(shoot, key)`; the effects of the call follow it. -/
  | ReconcileShoot (shoot : Shoot) (key : String)
  /-- Call `c.recorder.Eventf(shoot, eventtype, reason, ...)` with the formatted message. -/
  | Eventf (eventtype : EventType) (reason : EventReason) (message : String)
  /-- Call `c.updateShootStatusDeleteStart(operation)`. -/
  | updateShootStatusDeleteStart
  /-- Call `c.deleteShoot(operation)`. -/
  | deleteShoot
  /-- Call `c.updateShootStatusDeleteError(operation, deleteErr)`. -/
  | updateShootStatusDeleteError (lastError : LastError)
  /-- Call `c.updateShootStatusDeleteSuccess(operation)`. -/
  | updateShootStatusDeleteSuccess
  /-- Call `c.updateShootStatusReconcileStart(operation, operationType)`. -/
  | updateShootStatusReconcileStart (operationType : ShootLastOperationType)
  /-- Call `c.reconcileShoot(operation, operationType)`. -/
  | reconcileShoot (operationType : ShootLastOperationType)
  /-- Call `c.updateShootStatusReconcileError(operation, operationType, reconcileErr)`. -/
  | updateShootStatusReconcileError (operationType : ShootLastOperationType) (lastError : LastError)
  /-- Call `c.updateShootStatusReconcileSuccess(operation, operationType)`. -/
  | updateShootStatusReconcileSuccess (operationType : ShootLastOperationType)
  deriving DecidableEq, Repr

/-- What the calls made during one run of `ReconcileShoot` return (`none` is a
nil error), together with the random `operationID` drawn for the run. -/
structure Outcomes where
  operationID : String
  /-- The error result of `operation.New`. -/
  operationNew : Option GoError
  updateShootStatusDeleteStart : Option GoError
  deleteShoot : Option LastError
  updateShootStatusDeleteError : LastError → Option GoError
  updateShootStatusDeleteSuccess : Option GoError
  updateShootStatusReconcileStart : ShootLastOperationType → Option GoError
  reconcileShoot : ShootLastOperationType → Option LastError
  updateShootStatusReconcileError : ShootLastOperationType → LastError → Option GoError
  updateShootStatusReconcileSuccess : ShootLastOperationType → Option GoError

/-- How a call ends: it returns an error value (`none` for nil) or it panics. -/
inductive Completion where
  | Return (err : Option GoError)
  | Panic
  deriving DecidableEq, Repr

/-! ## Helpers from the Kubernetes libraries -/

/-- The function `cache.MetaNamespaceKeyFunc` on a shoot: the object has
metadata, so the key is `<namespace>/<name>`, or `<name>` alone when the
namespace is empty. -/
def MetaNamespaceKeyFunc (obj : Shoot) : Except GoError String :=
  if obj.Meta.Namespace.length > 0 then
    .ok (obj.Meta.Namespace ++ "/" ++ obj.Meta.Name)
  else
    .ok obj.Meta.Name

/-- The function `cache.DeletionHandlingMetaNamespaceKeyFunc` on a shoot (not
a tombstone): the key of `MetaNamespaceKeyFunc`. -/
def DeletionHandlingMetaNamespaceKeyFunc (obj : Shoot) : Except GoError String :=
  MetaNamespaceKeyFunc obj

/-- The call `strings.Split(key, "/")` on the characters of the key. -/
def splitSlash : List Char → List (List Char)
  | [] => [[]]
  | c :: cs =>
    if c = '/' then [] :: splitSlash cs
    else
      match splitSlash cs with
      | p :: ps => (c :: p) :: ps
      | [] => [[c]]

/-- The function `cache.SplitMetaNamespaceKey`, giving namespace and name: one
part is a name without namespace, two parts are namespace and name, anything
else is an error. -/
def SplitMetaNamespaceKey (key : String) : Except GoError (String × String) :=
  match splitSlash key.toList with
  | [name] => .ok ("", String.mk name)
  | [namespace_, name] => .ok (String.mk namespace_, String.mk name)
  | _ => .error (errorsNew ("unexpected key format: \"" ++ key ++ "\""))

/-- The function `metav1.HasAnnotation`: the key is bound in the annotations. -/
def HasAnnotation (obj : ObjectMeta) (ann : String) : Bool :=
  (obj.Annotations.lookup ann).isSome

/-- The test `sets.NewString(finalizers...).Has(name)`. -/
def hasFinalizer (obj : ObjectMeta) (name : String) : Bool :=
  obj.Finalizers.contains name

/-- Modelled from the spec: the helper `common.CheckConfirmationDeletionTimestampValid`
(package `operation/common`, not part of the sources at hand). The spec asks
that the deletion-confirmation annotation "must equal the deletion
timestamp's textual encoding exactly". -/
def CheckConfirmationDeletionTimestampValid (im : Imports) (objectMeta : ObjectMeta) : Bool :=
  match objectMeta.DeletionTimestamp, objectMeta.Annotations.lookup im.ConfirmationDeletionTimestamp with
  | some deletionTimestamp, some value => value == deletionTimestamp
  | _, _ => false

/-! ## The controller -/

/-- The function `scheduleNextSync`; `now` is the value of `time.Now().UnixNano()`. -/
def scheduleNextSync (im : Imports) (now : Int) (objectMeta : ObjectMeta) (errorOccured : Bool)
    (config : ShootControllerConfiguration) : Option Int :=
  if errorOccured then
    config.RetrySyncPeriod
  else
    let syncPeriod := config.SyncPeriod
    match config.RespectSyncPeriodOverwrite with
    | none => none
    | some respectSyncPeriodOverwrite =>
      let currentTimeNano := now
      let creationTimeNano := objectMeta.CreationTimestamp
      let syncPeriod :=
        match objectMeta.Annotations.lookup im.ShootSyncPeriod with
        | some syncPeriodOverwrite =>
          if respectSyncPeriodOverwrite then
            match im.ParseDuration syncPeriodOverwrite with
            | .ok syncPeriodAnnotation =>
              if syncPeriodAnnotation ≥ Minute then syncPeriodAnnotation else syncPeriod
            | .error _ => syncPeriod
          else syncPeriod
        | none => syncPeriod
      let syncPeriodNano := syncPeriod
      match remInt64 (subInt64 currentTimeNano creationTimeNano) syncPeriodNano with
      | none => none
      | some r =>
        let nextSyncNano := addInt64 (subInt64 currentTimeNano r) syncPeriodNano
        some (subInt64 nextSyncNano currentTimeNano)

/-- The value of the variable `syncPeriod` of `scheduleNextSync` once the
block that reads the override annotation has run (`respectSyncPeriodOverwrite`
being the dereferenced configuration flag): the period whose nanoseconds
divide in the remainder. -/
def effectiveSyncPeriod (im : Imports) (objectMeta : ObjectMeta)
    (config : ShootControllerConfiguration) (respectSyncPeriodOverwrite : Bool) : Int :=
  match objectMeta.Annotations.lookup im.ShootSyncPeriod with
  | some syncPeriodOverwrite =>
    if respectSyncPeriodOverwrite then
      match im.ParseDuration syncPeriodOverwrite with
      | .ok syncPeriodAnnotation =>
        if syncPeriodAnnotation ≥ Minute then syncPeriodAnnotation else config.SyncPeriod
      | .error _ => config.SyncPeriod
    else config.SyncPeriod
  | none => config.SyncPeriod

/-- The metadata with every binding of the annotation key `ann` removed. -/
def eraseAnnotationKey (objectMeta : ObjectMeta) (ann : String) : ObjectMeta :=
  { objectMeta with Annotations := objectMeta.Annotations.filter (fun kv => kv.1 != ann) }

/-- The method `defaultControl.ReconcileShoot`: the calls it makes and the
error it returns. -/
def ReconcileShoot (im : Imports) (o : Outcomes) (shootObj : Shoot) (_key : String) :
    List Effect × Option GoError :=
  match MetaNamespaceKeyFunc shootObj with
  | .error err => ([], some err)
  | .ok _ =>
    let shoot := shootObj
    let operationID := o.operationID
    let lastOperation := shoot.Status.LastOperation
    match o.operationNew with
    | some err => ([], some err)
    | none =>
      if (match lastOperation with
          | some op => op.State == ShootLastOperationState.Failed
              && shoot.Meta.Generation == shoot.Status.ObservedGeneration
          | none => false) then
        ([], none)
      else if shoot.Meta.DeletionTimestamp.isSome then
        if ! HasAnnotation shoot.Meta im.ConfirmationDeletionTimestamp
            || !CheckConfirmationDeletionTimestampValid im shoot.Meta then
          ([], none)
        else
          let t1 := [Effect.Eventf .Normal .ShootEventDeleting
                      ("[" ++ operationID ++ "] Deleting Shoot cluster"),
                     Effect.updateShootStatusDeleteStart]
          match o.updateShootStatusDeleteStart with
          | some updateErr => (t1, some updateErr)
          | none =>
            match o.deleteShoot with
            | some deleteErr =>
              let t2 := t1 ++ [Effect.deleteShoot,
                          Effect.Eventf .Warning .ShootEventDeleteError
                            ("[" ++ operationID ++ "] " ++ deleteErr.Description),
                          Effect.updateShootStatusDeleteError deleteErr]
              match o.updateShootStatusDeleteError deleteErr with
              | some updateErr => (t2, some updateErr)
              | none => (t2, some (errorsNew deleteErr.Description))
            | none =>
              let t2 := t1 ++ [Effect.deleteShoot,
                          Effect.Eventf .Normal .ShootEventDeleted
                            ("[" ++ operationID ++ "] Deleted Shoot cluster"),
                          Effect.updateShootStatusDeleteSuccess]
              match o.updateShootStatusDeleteSuccess with
              | some updateErr => (t2, some updateErr)
              | none => (t2, none)
      else
        let operationType :=
          if (match lastOperation with
              | none => true
              | some op => op.Type_ == ShootLastOperationType.Create
                  && op.State != ShootLastOperationState.Succeeded) then
            ShootLastOperationType.Create
          else ShootLastOperationType.Reconcile
        let t1 := [Effect.Eventf .Normal .ShootEventReconciling
                    ("[" ++ operationID ++ "] Reconciling Shoot cluster state"),
                   Effect.updateShootStatusReconcileStart operationType]
        match o.updateShootStatusReconcileStart operationType with
        | some updateErr => (t1, some updateErr)
        | none =>
          match o.reconcileShoot operationType with
          | some reconcileErr =>
            let t2 := t1 ++ [Effect.reconcileShoot operationType,
                        Effect.Eventf .Warning .ShootEventReconcileError
                          ("[" ++ operationID ++ "] " ++ reconcileErr.Description),
                        Effect.updateShootStatusReconcileError operationType reconcileErr]
            match o.updateShootStatusReconcileError operationType reconcileErr with
            | some updateErr => (t2, some updateErr)
            | none => (t2, some (errorsNew reconcileErr.Description))
          | none =>
            let t2 := t1 ++ [Effect.reconcileShoot operationType,
                        Effect.Eventf .Normal .ShootEventReconciled
                          ("[" ++ operationID ++ "] Reconciled Shoot cluster state"),
                        Effect.updateShootStatusReconcileSuccess operationType]
            match o.updateShootStatusReconcileSuccess operationType with
            | some updateErr => (t2, some updateErr)
            | none => (t2, none)

/-- The first test of `ReconcileShoot`: the last operation failed and the
generation has not changed since. -/
def failedAndUnchanged (shoot : Shoot) : Bool :=
  match shoot.Status.LastOperation with
  | some op => op.State == ShootLastOperationState.Failed
      && shoot.Meta.Generation == shoot.Status.ObservedGeneration
  | none => false

/-- The value `ReconcileShoot` gives its variable `operationType`. -/
def operationTypeOf (lastOperation : Option LastOperation) : ShootLastOperationType :=
  if (match lastOperation with
      | none => true
      | some op => op.Type_ == ShootLastOperationType.Create
          && op.State != ShootLastOperationState.Succeeded) then
    ShootLastOperationType.Create
  else ShootLastOperationType.Reconcile

/-- The state of a `Controller` that `reconcileShootKey` reads: the shoot
lister (`c.shootLister.Shoots(namespace).Get(name)`), the configuration
`c.config.Controllers.Shoot`, the current time and the outcomes of the calls
made by `c.control`, the default control. -/
structure Controller where
  shootLister : String → String → Except GoError Shoot
  config : ShootControllerConfiguration
  now : Int
  control : Outcomes

/-- The method `Controller.shootAdd`. -/
def shootAdd (obj : Shoot) : List Effect :=
  match MetaNamespaceKeyFunc obj with
  | .error _ => []
  | .ok key => [Effect.Add key]

/-- The method `Controller.shootUpdate`. -/
def shootUpdate (_oldObj newObj : Shoot) : List Effect :=
  let newShoot := newObj
  if newShoot.Meta.Generation == newShoot.Status.ObservedGeneration then
    []
  else
    shootAdd newObj

/-- The method `Controller.shootDelete`. -/
def shootDelete (obj : Shoot) : List Effect :=
  match DeletionHandlingMetaNamespaceKeyFunc obj with
  | .error _ => []
  | .ok key => [Effect.Add key]

/-- The method `Controller.reconcileShootKey`: the calls it makes and how it ends. -/
def reconcileShootKey (im : Imports) (c : Controller) (key : String) :
    List Effect × Completion :=
  match SplitMetaNamespaceKey key with
  | .error err => ([], .Return (some err))
  | .ok (namespace_, name) =>
    match c.shootLister namespace_ name with
    | .error err =>
      if err.IsNotFound then ([], .Return none)
      else ([], .Return (some err))
    | .ok shoot =>
      if shoot.Meta.DeletionTimestamp.isSome && !hasFinalizer shoot.Meta im.GardenerName then
        ([Effect.Forget key], .Return none)
      else
        let r := ReconcileShoot im c.control shoot key
        let reconcileErr := r.2
        let t := Effect.ReconcileShoot shoot key :: r.1
        match scheduleNextSync im c.now shoot.Meta reconcileErr.isSome c.config with
        | none => (t, .Panic)
        | some durationToNextSync =>
          (t ++ [Effect.AddAfter key durationToNextSync], .Return none)

/-- The delete sequence of `ReconcileShoot`, from the deleting event to the
last status update: its calls and the error returned. -/
def deleteSequence (o : Outcomes) : List Effect × Option GoError :=
  match o.updateShootStatusDeleteStart with
  | some updateErr =>
    ([Effect.Eventf .Normal .ShootEventDeleting
        ("[" ++ o.operationID ++ "] Deleting Shoot cluster"),
      Effect.updateShootStatusDeleteStart], some updateErr)
  | none =>
    match o.deleteShoot with
    | some deleteErr =>
      ([Effect.Eventf .Normal .ShootEventDeleting
          ("[" ++ o.operationID ++ "] Deleting Shoot cluster"),
        Effect.updateShootStatusDeleteStart, Effect.deleteShoot,
        Effect.Eventf .Warning .ShootEventDeleteError
          ("[" ++ o.operationID ++ "] " ++ deleteErr.Description),
        Effect.updateShootStatusDeleteError deleteErr],
       match o.updateShootStatusDeleteError deleteErr with
       | some updateErr => some updateErr
       | none => some (errorsNew deleteErr.Description))
    | none =>
      ([Effect.Eventf .Normal .ShootEventDeleting
          ("[" ++ o.operationID ++ "] Deleting Shoot cluster"),
        Effect.updateShootStatusDeleteStart, Effect.deleteShoot,
        Effect.Eventf .Normal .ShootEventDeleted
          ("[" ++ o.operationID ++ "] Deleted Shoot cluster"),
        Effect.updateShootStatusDeleteSuccess],
       o.updateShootStatusDeleteSuccess)

/-- The create-or-reconcile sequence of `ReconcileShoot` for an operation
type, from the reconciling event to the last status update: its calls and the
error returned. -/
def reconcileSequence (o : Outcomes) (operationType : ShootLastOperationType) :
    List Effect × Option GoError :=
  match o.updateShootStatusReconcileStart operationType with
  | some updateErr =>
    ([Effect.Eventf .Normal .ShootEventReconciling
        ("[" ++ o.operationID ++ "] Reconciling Shoot cluster state"),
      Effect.updateShootStatusReconcileStart operationType], some updateErr)
  | none =>
    match o.reconcileShoot operationType with
    | some reconcileErr =>
      ([Effect.Eventf .Normal .ShootEventReconciling
          ("[" ++ o.operationID ++ "] Reconciling Shoot cluster state"),
        Effect.updateShootStatusReconcileStart operationType,
        Effect.reconcileShoot operationType,
        Effect.Eventf .Warning .ShootEventReconcileError
          ("[" ++ o.operationID ++ "] " ++ reconcileErr.Description),
        Effect.updateShootStatusReconcileError operationType reconcileErr],
       match o.updateShootStatusReconcileError operationType reconcileErr with
       | some updateErr => some updateErr
       | none => some (errorsNew reconcileErr.Description))
    | none =>
      ([Effect.Eventf .Normal .ShootEventReconciling
          ("[" ++ o.operationID ++ "] Reconciling Shoot cluster state"),
        Effect.updateShootStatusReconcileStart operationType,
        Effect.reconcileShoot operationType,
        Effect.Eventf .Normal .ShootEventReconciled
          ("[" ++ o.operationID ++ "] Reconciled Shoot cluster state"),
        Effect.updateShootStatusReconcileSuccess operationType],
       o.updateShootStatusReconcileSuccess operationType)

/-- A call made by the dispatcher `reconcileShootKey` itself: a work queue
call or the call of `control.ReconcileShoot`. -/
def isDispatcherCall : Effect → Bool
  | .Add _ => true
  | .AddAfter _ _ => true
  | .Forget _ => true
  | .ReconcileShoot _ _ => true
  | _ => false

/-- A status update or a delegated flow, as opposed to an event or a
dispatcher call. -/
def isStatusOrDelegate : Effect → Bool
  | .updateShootStatusDeleteStart => true
  | .deleteShoot => true
  | .updateShootStatusDeleteError _ => true
  | .updateShootStatusDeleteSuccess => true
  | .updateShootStatusReconcileStart _ => true
  | .reconcileShoot _ => true
  | .updateShootStatusReconcileError _ _ => true
  | .updateShootStatusReconcileSuccess _ => true
  | _ => false

/-! ## A concrete instance of the imported declarations -/

/-- The table `unitMap` of `time.ParseDuration`: nanoseconds per unit. -/
def unitMap : List Char → Option Nat
  | ['n', 's'] => some 1
  | ['u', 's'] => some 1000
  | ['µ', 's'] => some 1000
  | ['μ', 's'] => some 1000
  | ['m', 's'] => some 1000000
  | ['s'] => some 1000000000
  | ['m'] => some 60000000000
  | ['h'] => some 3600000000000
  | _ => none

/-- The helper `leadingInt` of `time.ParseDuration`: the leading decimal
digits as a number and the rest of the input; `none` on overflow. -/
def leadingInt (x : Nat) : List Char → Option (Nat × List Char)
  | [] => some (x, [])
  | c :: cs =>
    if c.isDigit then
      if x > 9223372036854775808 / 10 then none
      else
        let y := x * 10 + (c.toNat - 48)
        if y > 9223372036854775808 then none else leadingInt y cs
    else some (x, c :: cs)

/-- The loop of `time.ParseDuration` over the segments `<digits><unit>`, `d`
being the nanoseconds summed so far. A segment with a fractional part, which
Go evaluates in floating point, is rejected here. -/
def parseSegments : Nat → Nat → List Char → Option Nat
  | _, d, [] => some d
  | 0, _, _ :: _ => none
  | fuel + 1, d, c :: cs =>
    if !(c == '.' || c.isDigit) then none
    else
      match leadingInt 0 (c :: cs) with
      | none => none
      | some (_, []) => none
      | some (v, c1 :: rest) =>
        if c1 == '.' then none
        else
          let us := (c1 :: rest).span (fun u => !(u == '.' || u.isDigit))
          match unitMap us.1 with
          | none => none
          | some unit =>
            if v > 9223372036854775808 / unit then none
            else
              let e := d + v * unit
              if e > 9223372036854775808 then none else parseSegments fuel e us.2

/-- The function `time.ParseDuration` on duration strings whose segments have
no fractional part, such as `"30s"`, `"-5m"` or `"1h30m"`. -/
def parseDurationWhole (s : String) : Except GoError Int :=
  let invalid : GoError := errorsNew ("time: invalid duration " ++ s)
  let signed : Bool × List Char :=
    match s.toList with
    | '-' :: r => (true, r)
    | '+' :: r => (false, r)
    | cs => (false, cs)
  if signed.2 = ['0'] then .ok 0
  else if signed.2 = [] then .error invalid
  else
    match parseSegments signed.2.length 0 signed.2 with
    | none => .error invalid
    | some d =>
      if signed.1 then .ok (wrapInt64 (-(d : Int)))
      else if d > 9223372036854775807 then .error invalid
      else .ok (d : Int)

/-- The imported declarations with the values of the gardener code base, the
duration parser being `parseDurationWhole`. -/
def gardenerImports : Imports where
  GardenerName := "gardener"
  ConfirmationDeletionTimestamp := "confirmation.garden.sapcloud.io/deletionTimestamp"
  ShootSyncPeriod := "shoot.garden.sapcloud.io/sync-period"
  ParseDuration := parseDurationWhole

/-- A run in which `operation.New`, every status update and both delegated
flows succeed. -/
def allSucceed : Outcomes where
  operationID := "a1b2c3d4"
  operationNew := none
  updateShootStatusDeleteStart := none
  deleteShoot := none
  updateShootStatusDeleteError := fun _ => none
  updateShootStatusDeleteSuccess := none
  updateShootStatusReconcileStart := fun _ => none
  reconcileShoot := fun _ => none
  updateShootStatusReconcileError := fun _ _ => none
  updateShootStatusReconcileSuccess := fun _ => none

/-! ## Concrete objects -/

/-- A shoot that was never reconciled and is not being deleted. -/
def freshShoot : Shoot where
  Meta := {
    Name := "crazy-botany"
    Namespace := "garden-dev"
    Generation := 1
    CreationTimestamp := 1520000000000000000
    DeletionTimestamp := none
    Finalizers := ["gardener"]
    Annotations := [] }
  Status := { LastOperation := none, ObservedGeneration := 0 }

/-- The key of `freshShoot` in the work queue. -/
def freshKey : String := "garden-dev/crazy-botany"

/-- A deletion timestamp in its textual encoding. -/
def deletionTime : String := "2018-03-02T14:13:20Z"

/-- A configuration: synchronise every hour, retry after 15 seconds. -/
def hourlyConfig : ShootControllerConfiguration where
  SyncPeriod := 3600000000000
  RetrySyncPeriod := some 15000000000
  RespectSyncPeriodOverwrite := some true

/-- A shoot under deletion: the deletion timestamp is set, the finalizer of
the controller is present and the confirmation annotation repeats the
deletion timestamp. -/
def terminatingShoot : Shoot where
  Meta := {
    Name := "crazy-botany"
    Namespace := "garden-dev"
    Generation := 2
    CreationTimestamp := 1520000000000000000
    DeletionTimestamp := some deletionTime
    Finalizers := ["gardener"]
    Annotations := [("confirmation.garden.sapcloud.io/deletionTimestamp", deletionTime)] }
  Status := {
    LastOperation := some { Type_ := .Reconcile, State := .Succeeded, Description := "done" }
    ObservedGeneration := 1 }

/-- A shoot whose last reconciliation failed and whose generation is the observed one. -/
def failedShoot : Shoot where
  Meta := {
    Name := "crazy-botany"
    Namespace := "garden-dev"
    Generation := 1
    CreationTimestamp := 1520000000000000000
    DeletionTimestamp := none
    Finalizers := ["gardener"]
    Annotations := [] }
  Status := {
    LastOperation := some { Type_ := .Reconcile, State := .Failed, Description := "disk full" }
    ObservedGeneration := 1 }

/-- A controller whose lister holds exactly the given shoot and whose control
meets the given outcomes. -/
def controllerOf (shoot : Shoot) (o : Outcomes) : Controller where
  shootLister := fun namespace_ name =>
    if namespace_ = shoot.Meta.Namespace ∧ name = shoot.Meta.Name then .ok shoot
    else .error { Message := "shoot not found", IsNotFound := true }
  config := hourlyConfig
  now := 1520000001000000000
  control := o

/-- A shoot reconciled with success whose specification has changed since. -/
def changedShoot : Shoot where
  Meta := {
    Name := "crazy-botany"
    Namespace := "garden-dev"
    Generation := 2
    CreationTimestamp := 1520000000000000000
    DeletionTimestamp := none
    Finalizers := ["gardener"]
    Annotations := [] }
  Status := {
    LastOperation := some { Type_ := .Reconcile, State := .Succeeded, Description := "done" }
    ObservedGeneration := 1 }

/-- The failure of a delegated flow. -/
def diskFull : LastError := { Description := "disk full", Codes := [] }

/-- A run in which the delegated flows fail with `diskFull` and everything
else succeeds. -/
def flowsFail : Outcomes :=
  { allSucceed with deleteShoot := some diskFull, reconcileShoot := fun _ => some diskFull }

/-- A run in which the start status updates fail with a conflict. -/
def startFails : Outcomes :=
  { allSucceed with
    updateShootStatusDeleteStart := some { Message := "the object has been modified",
                                           IsNotFound := false }
    updateShootStatusReconcileStart := fun _ => some
      { Message := "the object has been modified", IsNotFound := false } }

/-- A run in which `operation.New` fails. -/
def operationFails : Outcomes :=
  { allSucceed with operationNew := some { Message := "seed not found", IsNotFound := false } }

/-- An error of the shoot lister other than not-found. -/
def listerError : GoError := { Message := "cache not synced", IsNotFound := false }

/-- A status update failure. -/
def conflictError : GoError :=
  { Message := "the object has been modified", IsNotFound := false }

end Gardener


namespace Gardener

/-! ## Arithmetic of the next synchronisation -/

theorem wrapInt64_eq_self {x : Int} (h1 : minInt64 ≤ x) (h2 : x ≤ maxInt64) :
    wrapInt64 x = x := by
  unfold wrapInt64
  unfold minInt64 at h1
  unfold maxInt64 at h2
  omega

theorem next_sync_wraps_once (now r p : Int) :
    subInt64 (addInt64 (subInt64 now (wrapInt64 r)) p) now = wrapInt64 (p - r) := by
  unfold subInt64 addInt64 wrapInt64
  omega

theorem scheduleNextSync_success (im : Imports) (now : Int) (objectMeta : ObjectMeta)
    (config : ShootControllerConfiguration) (respect : Bool)
    (hr : config.RespectSyncPeriodOverwrite = some respect) :
    scheduleNextSync im now objectMeta false config =
      if effectiveSyncPeriod im objectMeta config respect = 0 then none
      else some (wrapInt64 (effectiveSyncPeriod im objectMeta config respect -
        Int.tmod (subInt64 now objectMeta.CreationTimestamp)
          (effectiveSyncPeriod im objectMeta config respect))) := by
  have key : ∀ p : Int,
      (match remInt64 (subInt64 now objectMeta.CreationTimestamp) p with
        | none => none
        | some r => some (subInt64 (addInt64 (subInt64 now r) p) now)) =
      if p = 0 then none
      else some (wrapInt64 (p - Int.tmod (subInt64 now objectMeta.CreationTimestamp) p)) := by
    intro p
    unfold remInt64
    by_cases hp : p = 0
    · simp [hp]
    · simp [hp, next_sync_wraps_once]
  unfold scheduleNextSync
  simp only [hr, Bool.false_eq_true, if_false]
  exact key _

/-! ## The delay until the next synchronisation -/

theorem scheduleNextSync_anchored (im : Imports) (now : Int) (objectMeta : ObjectMeta)
    (config : ShootControllerConfiguration) (respect : Bool) (p : Int)
    (hr : config.RespectSyncPeriodOverwrite = some respect)
    (hp : effectiveSyncPeriod im objectMeta config respect = p)
    (hpos : 0 < p) (hmax : p ≤ maxInt64)
    (hc : objectMeta.CreationTimestamp ≤ now)
    (hno : now - objectMeta.CreationTimestamp ≤ maxInt64) :
    scheduleNextSync im now objectMeta false config =
      some (p - (now - objectMeta.CreationTimestamp) % p) := by
  rw [scheduleNextSync_success im now objectMeta config respect hr, hp]
  have hne : p ≠ 0 := by omega
  have hsub : subInt64 now objectMeta.CreationTimestamp = now - objectMeta.CreationTimestamp := by
    unfold subInt64
    apply wrapInt64_eq_self
    · unfold minInt64; omega
    · exact hno
  have hnn : 0 ≤ now - objectMeta.CreationTimestamp := by omega
  have h1 : 0 ≤ (now - objectMeta.CreationTimestamp) % p := Int.emod_nonneg _ hne
  have h2 : (now - objectMeta.CreationTimestamp) % p < p := Int.emod_lt_of_pos _ hpos
  rw [if_neg hne, hsub, Int.tmod_eq_emod hnn (le_of_lt hpos)]
  congr 1
  apply wrapInt64_eq_self
  · unfold minInt64; omega
  · omega

/-- C7 (as stated, refuted): with a creation time one nanosecond after the
current instant and a period of one hour, the success-path delay is the
period plus one nanosecond, which exceeds the period. -/
theorem scheduleNextSync_exceeds_period_for_later_creation :
    effectiveSyncPeriod gardenerImports
        { freshShoot.Meta with CreationTimestamp := 1520000000000000001 } hourlyConfig true
      = 3600000000000 ∧
    scheduleNextSync gardenerImports 1520000000000000000
        { freshShoot.Meta with CreationTimestamp := 1520000000000000001 } false hourlyConfig
      = some 3600000000001 ∧
    ¬ ((0 : Int) ≤ 3600000000001 ∧ (3600000000001 : Int) ≤ 3600000000000) := by
  refine ⟨by rfl, by rfl, by decide⟩

/-- C7 (amended): for every effective sync period `p > 0` and every creation
time not later than the current instant (the difference fitting an `int64`),
`scheduleNextSync` with `errorOccured = false` returns a duration `d` with
`0 ≤ d ≤ p`. -/
theorem scheduleNextSync_delay_within_period (im : Imports) (now : Int) (objectMeta : ObjectMeta)
    (config : ShootControllerConfiguration) (respect : Bool) (p : Int)
    (hr : config.RespectSyncPeriodOverwrite = some respect)
    (hp : effectiveSyncPeriod im objectMeta config respect = p)
    (hpos : 0 < p) (hmax : p ≤ maxInt64)
    (hc : objectMeta.CreationTimestamp ≤ now)
    (hno : now - objectMeta.CreationTimestamp ≤ maxInt64) :
    ∃ d, scheduleNextSync im now objectMeta false config = some d ∧ 0 ≤ d ∧ d ≤ p := by
  refine ⟨_, scheduleNextSync_anchored im now objectMeta config respect p hr hp hpos hmax hc hno, ?_, ?_⟩
  · have h2 : (now - objectMeta.CreationTimestamp) % p < p := Int.emod_lt_of_pos _ hpos
    omega
  · have h1 : 0 ≤ (now - objectMeta.CreationTimestamp) % p :=
      Int.emod_nonneg _ (by omega)
    omega

theorem scheduleNextSync_delay_within_period_witness :
    ∃ d, scheduleNextSync gardenerImports 1520000001000000000 freshShoot.Meta false hourlyConfig
      = some d ∧ 0 ≤ d ∧ d ≤ 3600000000000 :=
  scheduleNextSync_delay_within_period gardenerImports 1520000001000000000 freshShoot.Meta
    hourlyConfig true 3600000000000 (by rfl) (by rfl) (by decide) (by decide) (by decide)
    (by decide)

/-- C8: with `errorOccured = true` and a configuration that has a
`RetrySyncPeriod`, `scheduleNextSync` returns exactly that period, whatever
the metadata (creation timestamp, annotations), the current instant, the
configured `SyncPeriod`, `RespectSyncPeriodOverwrite` and the imported
declarations. -/
theorem scheduleNextSync_error_returns_retry_period (im : Imports) (now : Int)
    (objectMeta : ObjectMeta) (config : ShootControllerConfiguration)
    (retry : Int) (hretry : config.RetrySyncPeriod = some retry) :
    scheduleNextSync im now objectMeta true config = some retry ∧
    ∀ (otherImports : Imports) (otherNow : Int) (otherMeta : ObjectMeta) (syncPeriod : Int)
      (respect : Option Bool),
      scheduleNextSync otherImports otherNow otherMeta true
        { config with SyncPeriod := syncPeriod, RespectSyncPeriodOverwrite := respect }
        = some retry := by
  refine ⟨by simp [scheduleNextSync, hretry], ?_⟩
  intro otherImports otherNow otherMeta syncPeriod respect
  simp [scheduleNextSync, hretry]

theorem scheduleNextSync_error_returns_retry_period_witness :
    scheduleNextSync gardenerImports 1520000001000000000 freshShoot.Meta true hourlyConfig
      = some 15000000000 ∧
    ∀ (otherImports : Imports) (otherNow : Int) (otherMeta : ObjectMeta) (syncPeriod : Int)
      (respect : Option Bool),
      scheduleNextSync otherImports otherNow otherMeta true
        { hourlyConfig with SyncPeriod := syncPeriod, RespectSyncPeriodOverwrite := respect }
        = some 15000000000 :=
  scheduleNextSync_error_returns_retry_period gardenerImports 1520000001000000000
    freshShoot.Meta hourlyConfig 15000000000 (by rfl)

/-- C9: for every effective period `p > 0` and every creation time `c ≤ now`
(the difference fitting an `int64`), `scheduleNextSync` with
`errorOccured = false` returns `d = p - ((now - c) mod p)`; `now + d` is
`c + k * p` for a positive integer `k`, lies strictly after `now`, and no
instant `c + j * p` lies strictly between `now` and `now + d`. -/
theorem scheduleNextSync_anchored_to_creation (im : Imports) (now : Int) (objectMeta : ObjectMeta)
    (config : ShootControllerConfiguration) (respect : Bool) (p : Int)
    (hr : config.RespectSyncPeriodOverwrite = some respect)
    (hp : effectiveSyncPeriod im objectMeta config respect = p)
    (hpos : 0 < p) (hmax : p ≤ maxInt64)
    (hc : objectMeta.CreationTimestamp ≤ now)
    (hno : now - objectMeta.CreationTimestamp ≤ maxInt64) :
    ∃ d, scheduleNextSync im now objectMeta false config = some d ∧
      d = p - (now - objectMeta.CreationTimestamp) % p ∧
      now < now + d ∧
      (∃ k : Int, 0 < k ∧ now + d = objectMeta.CreationTimestamp + k * p) ∧
      (∀ j : Int, now < objectMeta.CreationTimestamp + j * p →
        now + d ≤ objectMeta.CreationTimestamp + j * p) := by
  refine ⟨_, scheduleNextSync_anchored im now objectMeta config respect p hr hp hpos hmax hc hno,
    rfl, ?_, ?_, ?_⟩
  · have h2 : (now - objectMeta.CreationTimestamp) % p < p := Int.emod_lt_of_pos _ hpos
    omega
  · refine ⟨(now - objectMeta.CreationTimestamp) / p + 1, ?_, ?_⟩
    · have : 0 ≤ (now - objectMeta.CreationTimestamp) / p :=
        Int.ediv_nonneg (by omega) (le_of_lt hpos)
      omega
    · have hdm := Int.emod_add_ediv (now - objectMeta.CreationTimestamp) p
      have hmul : ((now - objectMeta.CreationTimestamp) / p + 1) * p
          = p * ((now - objectMeta.CreationTimestamp) / p) + p := by ring
      rw [hmul]
      omega
  · intro j hj
    have hdm := Int.emod_add_ediv (now - objectMeta.CreationTimestamp) p
    have h1 : 0 ≤ (now - objectMeta.CreationTimestamp) % p := Int.emod_nonneg _ (by omega)
    have hq : (now - objectMeta.CreationTimestamp) / p < j := by
      by_contra hcon
      have hle : j ≤ (now - objectMeta.CreationTimestamp) / p := by omega
      have := Int.mul_le_mul_of_nonneg_left hle (le_of_lt hpos)
      have hcomm : j * p = p * j := by ring
      omega
    have hle : (now - objectMeta.CreationTimestamp) / p + 1 ≤ j := by omega
    have := Int.mul_le_mul_of_nonneg_left hle (le_of_lt hpos)
    have hcomm : j * p = p * j := by ring
    have hmul : p * ((now - objectMeta.CreationTimestamp) / p + 1)
        = p * ((now - objectMeta.CreationTimestamp) / p) + p := by ring
    omega

theorem scheduleNextSync_anchored_to_creation_witness :
    ∃ d, scheduleNextSync gardenerImports 1520000001000000000 freshShoot.Meta false hourlyConfig
        = some d ∧
      d = 3600000000000 - (1520000001000000000 - freshShoot.Meta.CreationTimestamp) % 3600000000000 ∧
      (1520000001000000000 : Int) < 1520000001000000000 + d ∧
      (∃ k : Int, 0 < k ∧
        1520000001000000000 + d = freshShoot.Meta.CreationTimestamp + k * 3600000000000) ∧
      (∀ j : Int, 1520000001000000000 < freshShoot.Meta.CreationTimestamp + j * 3600000000000 →
        1520000001000000000 + d ≤ freshShoot.Meta.CreationTimestamp + j * 3600000000000) :=
  scheduleNextSync_anchored_to_creation gardenerImports 1520000001000000000 freshShoot.Meta
    hourlyConfig true 3600000000000 (by rfl) (by rfl) (by decide) (by decide) (by decide)
    (by decide)

theorem lookup_filter_ne (ann : String) (l : List (String × String)) :
    (l.filter (fun kv => kv.1 != ann)).lookup ann = none := by
  induction l with
  | nil => rfl
  | cons kv rest ih =>
    by_cases h : kv.1 = ann
    · simp [List.filter, h, ih]
    · have hne : (kv.1 != ann) = true := by simpa using h
      have hbeq : (ann == kv.1) = false := by
        simpa using fun heq : ann = kv.1 => h heq.symm
      simp only [List.filter, hne]
      obtain ⟨k, v⟩ := kv
      simp only [List.lookup] at *
      simp only [hbeq]
      exact ih

theorem effectiveSyncPeriod_eraseAnnotationKey (im : Imports) (objectMeta : ObjectMeta)
    (config : ShootControllerConfiguration) (respect : Bool) :
    effectiveSyncPeriod im (eraseAnnotationKey objectMeta im.ShootSyncPeriod) config respect
      = config.SyncPeriod := by
  simp [effectiveSyncPeriod, eraseAnnotationKey, lookup_filter_ne]

/-- C10: when the metadata carries the sync-period annotation and its value
fails to parse, or parses to a duration below one minute (zero and negative
durations included), or `RespectSyncPeriodOverwrite` is false, then
`scheduleNextSync` with `errorOccured = false` returns the same delay as for
the same metadata without the annotation, and the period it divides by is the
configured `SyncPeriod`. -/
theorem scheduleNextSync_ignores_short_override (im : Imports) (now : Int)
    (objectMeta : ObjectMeta) (config : ShootControllerConfiguration) (value : String)
    (hann : objectMeta.Annotations.lookup im.ShootSyncPeriod = some value)
    (h : config.RespectSyncPeriodOverwrite = some false
      ∨ (∃ e, im.ParseDuration value = .error e)
      ∨ (∃ d, im.ParseDuration value = .ok d ∧ d < Minute)) :
    scheduleNextSync im now objectMeta false config
      = scheduleNextSync im now (eraseAnnotationKey objectMeta im.ShootSyncPeriod) false config
    ∧ ∀ respect, config.RespectSyncPeriodOverwrite = some respect →
        effectiveSyncPeriod im objectMeta config respect = config.SyncPeriod := by
  have hper : ∀ respect, config.RespectSyncPeriodOverwrite = some respect →
      effectiveSyncPeriod im objectMeta config respect = config.SyncPeriod := by
    intro respect hr
    unfold effectiveSyncPeriod
    rw [hann]
    rcases h with h | ⟨e, he⟩ | ⟨d, hd, hlt⟩
    · rw [hr] at h
      cases h
      simp
    · simp [he]
    · have : ¬ d ≥ Minute := by omega
      simp [hd, this]
  refine ⟨?_, hper⟩
  cases hr : config.RespectSyncPeriodOverwrite with
  | none => simp [scheduleNextSync, hr]
  | some respect =>
    rw [scheduleNextSync_success im now objectMeta config respect hr,
      scheduleNextSync_success im now _ config respect hr,
      effectiveSyncPeriod_eraseAnnotationKey, hper respect hr]
    rfl

theorem scheduleNextSync_ignores_short_override_witness :
    scheduleNextSync gardenerImports 1520000001000000000
        { freshShoot.Meta with Annotations := [("shoot.garden.sapcloud.io/sync-period", "30s")] }
        false hourlyConfig
      = scheduleNextSync gardenerImports 1520000001000000000
        (eraseAnnotationKey
          { freshShoot.Meta with Annotations := [("shoot.garden.sapcloud.io/sync-period", "30s")] }
          gardenerImports.ShootSyncPeriod) false hourlyConfig
    ∧ ∀ respect, hourlyConfig.RespectSyncPeriodOverwrite = some respect →
        effectiveSyncPeriod gardenerImports
          { freshShoot.Meta with Annotations := [("shoot.garden.sapcloud.io/sync-period", "30s")] }
          hourlyConfig respect = hourlyConfig.SyncPeriod :=
  scheduleNextSync_ignores_short_override gardenerImports 1520000001000000000
    { freshShoot.Meta with Annotations := [("shoot.garden.sapcloud.io/sync-period", "30s")] }
    hourlyConfig "30s" (by rfl)
    (Or.inr (Or.inr ⟨30000000000, by rfl, by decide⟩))

/-! ## The lifecycle control -/

theorem MetaNamespaceKeyFunc_ok (obj : Shoot) : ∃ key, MetaNamespaceKeyFunc obj = .ok key := by
  unfold MetaNamespaceKeyFunc
  split
  · exact ⟨_, rfl⟩
  · exact ⟨_, rfl⟩

theorem unconfirmed_iff (im : Imports) (objectMeta : ObjectMeta) (T : String)
    (hdel : objectMeta.DeletionTimestamp = some T) :
    ( HasAnnotation objectMeta im.ConfirmationDeletionTimestamp = false
      ∨ CheckConfirmationDeletionTimestampValid im objectMeta = false)
    ↔ objectMeta.Annotations.lookup im.ConfirmationDeletionTimestamp ≠ some T := by
  unfold HasAnnotation CheckConfirmationDeletionTimestampValid
  rw [hdel]
  cases hl : objectMeta.Annotations.lookup im.ConfirmationDeletionTimestamp with
  | none => simp
  | some v => simp

theorem ReconcileShoot_failedAndUnchanged (im : Imports) (o : Outcomes) (shoot : Shoot)
    (key : String) (hnew : o.operationNew = none) (hfu : failedAndUnchanged shoot = true) :
    ReconcileShoot im o shoot key = ([], none) := by
  obtain ⟨k, hk⟩ := MetaNamespaceKeyFunc_ok shoot
  unfold failedAndUnchanged at hfu
  unfold ReconcileShoot
  simp only [hk, hnew, hfu, if_true]

theorem ReconcileShoot_unconfirmed (im : Imports) (o : Outcomes) (shoot : Shoot)
    (key : String) (hnew : o.operationNew = none)
    (hdel : shoot.Meta.DeletionTimestamp.isSome = true)
    (h : HasAnnotation shoot.Meta im.ConfirmationDeletionTimestamp = false
      ∨ CheckConfirmationDeletionTimestampValid im shoot.Meta = false) :
    ReconcileShoot im o shoot key = ([], none) := by
  by_cases hfu : failedAndUnchanged shoot = true
  · exact ReconcileShoot_failedAndUnchanged im o shoot key hnew hfu
  · obtain ⟨k, hk⟩ := MetaNamespaceKeyFunc_ok shoot
    unfold failedAndUnchanged at hfu
    have hcond : (! HasAnnotation shoot.Meta im.ConfirmationDeletionTimestamp
        || !CheckConfirmationDeletionTimestampValid im shoot.Meta) = true := by
      rcases h with h | h <;> simp [h]
    unfold ReconcileShoot
    simp only [hk, hnew, hfu, hdel, hcond, if_true, if_false]
    simp

theorem ReconcileShoot_operationNew_fails (im : Imports) (o : Outcomes) (shoot : Shoot)
    (key : String) (err : GoError) (hnew : o.operationNew = some err) :
    ReconcileShoot im o shoot key = ([], some err) := by
  obtain ⟨k, hk⟩ := MetaNamespaceKeyFunc_ok shoot
  unfold ReconcileShoot
  simp only [hk, hnew]

theorem ReconcileShoot_delete_phase (im : Imports) (o : Outcomes) (shoot : Shoot)
    (key : String) (hnew : o.operationNew = none) (hfu : failedAndUnchanged shoot = false)
    (hdel : shoot.Meta.DeletionTimestamp.isSome = true)
    (hann : HasAnnotation shoot.Meta im.ConfirmationDeletionTimestamp = true)
    (hcheck : CheckConfirmationDeletionTimestampValid im shoot.Meta = true) :
    ReconcileShoot im o shoot key =
      match o.updateShootStatusDeleteStart with
      | some updateErr =>
        ([Effect.Eventf .Normal .ShootEventDeleting
            ("[" ++ o.operationID ++ "] Deleting Shoot cluster"),
          Effect.updateShootStatusDeleteStart], some updateErr)
      | none =>
        match o.deleteShoot with
        | some deleteErr =>
          ([Effect.Eventf .Normal .ShootEventDeleting
              ("[" ++ o.operationID ++ "] Deleting Shoot cluster"),
            Effect.updateShootStatusDeleteStart, Effect.deleteShoot,
            Effect.Eventf .Warning .ShootEventDeleteError
              ("[" ++ o.operationID ++ "] " ++ deleteErr.Description),
            Effect.updateShootStatusDeleteError deleteErr],
           match o.updateShootStatusDeleteError deleteErr with
           | some updateErr => some updateErr
           | none => some (errorsNew deleteErr.Description))
        | none =>
          ([Effect.Eventf .Normal .ShootEventDeleting
              ("[" ++ o.operationID ++ "] Deleting Shoot cluster"),
            Effect.updateShootStatusDeleteStart, Effect.deleteShoot,
            Effect.Eventf .Normal .ShootEventDeleted
              ("[" ++ o.operationID ++ "] Deleted Shoot cluster"),
            Effect.updateShootStatusDeleteSuccess],
           o.updateShootStatusDeleteSuccess) := by
  obtain ⟨k, hk⟩ := MetaNamespaceKeyFunc_ok shoot
  unfold failedAndUnchanged at hfu
  unfold ReconcileShoot
  simp only [hk, hnew, hfu, hdel, hann, hcheck, if_true, Bool.not_true, Bool.or_self,
    Bool.false_eq_true, if_false]
  cases o.updateShootStatusDeleteStart with
  | some e => rfl
  | none =>
    cases o.deleteShoot with
    | some deleteErr =>
      dsimp only
      cases o.updateShootStatusDeleteError deleteErr <;> rfl
    | none =>
      dsimp only
      cases o.updateShootStatusDeleteSuccess <;> rfl

theorem ReconcileShoot_reconcile_phase (im : Imports) (o : Outcomes) (shoot : Shoot)
    (key : String) (hnew : o.operationNew = none) (hfu : failedAndUnchanged shoot = false)
    (hdel : shoot.Meta.DeletionTimestamp = none) :
    ReconcileShoot im o shoot key =
      match o.updateShootStatusReconcileStart (operationTypeOf shoot.Status.LastOperation) with
      | some updateErr =>
        ([Effect.Eventf .Normal .ShootEventReconciling
            ("[" ++ o.operationID ++ "] Reconciling Shoot cluster state"),
          Effect.updateShootStatusReconcileStart (operationTypeOf shoot.Status.LastOperation)],
         some updateErr)
      | none =>
        match o.reconcileShoot (operationTypeOf shoot.Status.LastOperation) with
        | some reconcileErr =>
          ([Effect.Eventf .Normal .ShootEventReconciling
              ("[" ++ o.operationID ++ "] Reconciling Shoot cluster state"),
            Effect.updateShootStatusReconcileStart (operationTypeOf shoot.Status.LastOperation),
            Effect.reconcileShoot (operationTypeOf shoot.Status.LastOperation),
            Effect.Eventf .Warning .ShootEventReconcileError
              ("[" ++ o.operationID ++ "] " ++ reconcileErr.Description),
            Effect.updateShootStatusReconcileError
              (operationTypeOf shoot.Status.LastOperation) reconcileErr],
           match o.updateShootStatusReconcileError
              (operationTypeOf shoot.Status.LastOperation) reconcileErr with
           | some updateErr => some updateErr
           | none => some (errorsNew reconcileErr.Description))
        | none =>
          ([Effect.Eventf .Normal .ShootEventReconciling
              ("[" ++ o.operationID ++ "] Reconciling Shoot cluster state"),
            Effect.updateShootStatusReconcileStart (operationTypeOf shoot.Status.LastOperation),
            Effect.reconcileShoot (operationTypeOf shoot.Status.LastOperation),
            Effect.Eventf .Normal .ShootEventReconciled
              ("[" ++ o.operationID ++ "] Reconciled Shoot cluster state"),
            Effect.updateShootStatusReconcileSuccess
              (operationTypeOf shoot.Status.LastOperation)],
           o.updateShootStatusReconcileSuccess (operationTypeOf shoot.Status.LastOperation)) := by
  obtain ⟨k, hk⟩ := MetaNamespaceKeyFunc_ok shoot
  have htype : ∀ t, operationTypeOf shoot.Status.LastOperation = t →
      (if (match shoot.Status.LastOperation with
          | none => true
          | some op => op.Type_ == ShootLastOperationType.Create
              && op.State != ShootLastOperationState.Succeeded) = true then
        ShootLastOperationType.Create
      else ShootLastOperationType.Reconcile) = t := fun t ht => ht
  unfold failedAndUnchanged at hfu
  generalize ht : operationTypeOf shoot.Status.LastOperation = t
  unfold ReconcileShoot
  simp only [hk, hnew, hfu, hdel, Option.isSome_none, Bool.false_eq_true, if_false,
    htype t ht]
  cases o.updateShootStatusReconcileStart t with
  | some e => rfl
  | none =>
    cases o.reconcileShoot t with
    | some reconcileErr =>
      dsimp only
      cases o.updateShootStatusReconcileError t reconcileErr <;> rfl
    | none =>
      dsimp only
      cases o.updateShootStatusReconcileSuccess t <;> rfl

theorem reconcileShootKey_reconciles (im : Imports) (c : Controller) (key namespace_ name : String)
    (shoot : Shoot) (hsplit : SplitMetaNamespaceKey key = .ok (namespace_, name))
    (hget : c.shootLister namespace_ name = .ok shoot)
    (hnot : (shoot.Meta.DeletionTimestamp.isSome
      && !hasFinalizer shoot.Meta im.GardenerName) = false) :
    reconcileShootKey im c key =
      match scheduleNextSync im c.now shoot.Meta
          (ReconcileShoot im c.control shoot key).2.isSome c.config with
      | none =>
        (Effect.ReconcileShoot shoot key :: (ReconcileShoot im c.control shoot key).1,
          Completion.Panic)
      | some durationToNextSync =>
        (Effect.ReconcileShoot shoot key :: (ReconcileShoot im c.control shoot key).1
          ++ [Effect.AddAfter key durationToNextSync], Completion.Return none) := by
  unfold reconcileShootKey
  simp only [hsplit, hget, hnot, Bool.false_eq_true, if_false]

theorem reconcileShootKey_forgets (im : Imports) (c : Controller) (key namespace_ name : String)
    (shoot : Shoot) (hsplit : SplitMetaNamespaceKey key = .ok (namespace_, name))
    (hget : c.shootLister namespace_ name = .ok shoot)
    (hdel : shoot.Meta.DeletionTimestamp.isSome = true)
    (hfin : hasFinalizer shoot.Meta im.GardenerName = false) :
    reconcileShootKey im c key = ([Effect.Forget key], Completion.Return none) := by
  unfold reconcileShootKey
  simp [hsplit, hget, hdel, hfin]

theorem deleteShoot_mem_ReconcileShoot (im : Imports) (o : Outcomes) (shoot : Shoot)
    (key T : String) (hdel : shoot.Meta.DeletionTimestamp = some T)
    (hmem : Effect.deleteShoot ∈ (ReconcileShoot im o shoot key).1) :
    shoot.Meta.Annotations.lookup im.ConfirmationDeletionTimestamp = some T := by
  by_contra hne
  have hun := (unconfirmed_iff im shoot.Meta T hdel).mpr hne
  cases hnew : o.operationNew with
  | some err =>
    rw [ReconcileShoot_operationNew_fails im o shoot key err hnew] at hmem
    simp at hmem
  | none =>
    rw [ReconcileShoot_unconfirmed im o shoot key hnew (by simp [hdel]) hun] at hmem
    simp at hmem

/-! ## Deletion -/

/-- C1: for a shoot whose deletion timestamp is set and whose confirmation
annotation is absent or not equal to the deletion timestamp (`HasAnnotation`
is false or `CheckConfirmationDeletionTimestampValid` is false),
`ReconcileShoot`, operation initialisation having succeeded, makes no call at
all (no `deleteShoot`, no status update, no `reconcileShoot`, no event) and
returns nil. -/
theorem ReconcileShoot_skips_unconfirmed_deletion (im : Imports) (o : Outcomes) (shoot : Shoot)
    (key : String) (hnew : o.operationNew = none)
    (hdel : shoot.Meta.DeletionTimestamp ≠ none)
    (h : HasAnnotation shoot.Meta im.ConfirmationDeletionTimestamp = false
      ∨ CheckConfirmationDeletionTimestampValid im shoot.Meta = false) :
    ReconcileShoot im o shoot key = ([], none) := by
  apply ReconcileShoot_unconfirmed im o shoot key hnew _ h
  cases hd : shoot.Meta.DeletionTimestamp with
  | none => exact absurd hd hdel
  | some T => rfl

theorem ReconcileShoot_skips_unconfirmed_deletion_witness :
    ReconcileShoot gardenerImports allSucceed
      { terminatingShoot with Meta := { terminatingShoot.Meta with
          Annotations := [("confirmation.garden.sapcloud.io/deletionTimestamp", "true")] } }
      freshKey = ([], none) :=
  ReconcileShoot_skips_unconfirmed_deletion gardenerImports allSucceed
    { terminatingShoot with Meta := { terminatingShoot.Meta with
        Annotations := [("confirmation.garden.sapcloud.io/deletionTimestamp", "true")] } }
    freshKey (by rfl) (by decide) (Or.inr (by rfl))

/-- C2 (as stated, refuted): `ReconcileShoot` does not look at the finalizers.
For a confirmed terminating shoot without the finalizer of the controller it
runs the whole delete sequence, `deleteShoot` included. -/
theorem ReconcileShoot_deletes_without_finalizer :
    hasFinalizer { terminatingShoot.Meta with Finalizers := [] } gardenerImports.GardenerName
      = false ∧
    ReconcileShoot gardenerImports allSucceed
      { terminatingShoot with Meta := { terminatingShoot.Meta with Finalizers := [] } } freshKey
      = ([Effect.Eventf .Normal .ShootEventDeleting "[a1b2c3d4] Deleting Shoot cluster",
          Effect.updateShootStatusDeleteStart,
          Effect.deleteShoot,
          Effect.Eventf .Normal .ShootEventDeleted "[a1b2c3d4] Deleted Shoot cluster",
          Effect.updateShootStatusDeleteSuccess], none) := by
  refine ⟨by rfl, by rfl⟩

/-- C2 (amended): for a key that resolves to a shoot whose deletion timestamp
`T` is set, `ReconcileShoot` invokes `deleteShoot` only if the confirmation
annotation equals `T`; the finalizer is examined by the caller
`reconcileShootKey`, in which `deleteShoot` is reached only if the finalizers
contain the finalizer of the controller and the annotation equals `T`, and
which for a shoot lacking the finalizer only forgets the key (no call of
`ReconcileShoot`, no status update, no delegated action), whatever the
annotations; `ReconcileShoot` itself never examines the finalizers: its calls
and its result are the same whatever the finalizers of the shoot. -/
theorem deleteShoot_needs_confirmation_and_finalizer (im : Imports) (c : Controller)
    (key namespace_ name T : String) (shoot : Shoot)
    (hsplit : SplitMetaNamespaceKey key = .ok (namespace_, name))
    (hget : c.shootLister namespace_ name = .ok shoot)
    (hdel : shoot.Meta.DeletionTimestamp = some T) :
    (∀ o : Outcomes, Effect.deleteShoot ∈ (ReconcileShoot im o shoot key).1 →
      shoot.Meta.Annotations.lookup im.ConfirmationDeletionTimestamp = some T) ∧
    (Effect.deleteShoot ∈ (reconcileShootKey im c key).1 →
      hasFinalizer shoot.Meta im.GardenerName = true ∧
      shoot.Meta.Annotations.lookup im.ConfirmationDeletionTimestamp = some T) ∧
    (hasFinalizer shoot.Meta im.GardenerName = false →
      reconcileShootKey im c key = ([Effect.Forget key], Completion.Return none)) ∧
    (∀ (o : Outcomes) (finalizers : List String),
      ReconcileShoot im o { shoot with Meta := { shoot.Meta with Finalizers := finalizers } } key
        = ReconcileShoot im o shoot key) := by
  have hsome : shoot.Meta.DeletionTimestamp.isSome = true := by simp [hdel]
  refine ⟨fun o hmem => deleteShoot_mem_ReconcileShoot im o shoot key T hdel hmem, ?_,
    fun hfin => reconcileShootKey_forgets im c key namespace_ name shoot hsplit hget hsome hfin,
    fun _ _ => rfl⟩
  intro hmem
  cases hfin : hasFinalizer shoot.Meta im.GardenerName with
  | false =>
    rw [reconcileShootKey_forgets im c key namespace_ name shoot hsplit hget hsome hfin] at hmem
    simp at hmem
  | true =>
    refine ⟨rfl, ?_⟩
    rw [reconcileShootKey_reconciles im c key namespace_ name shoot hsplit hget
      (by simp [hfin])] at hmem
    apply deleteShoot_mem_ReconcileShoot im c.control shoot key T hdel
    cases hs : scheduleNextSync im c.now shoot.Meta
        (ReconcileShoot im c.control shoot key).2.isSome c.config with
    | none =>
      rw [hs] at hmem
      simpa using hmem
    | some d =>
      rw [hs] at hmem
      simpa using hmem

theorem deleteShoot_needs_confirmation_and_finalizer_witness :
    (∀ o : Outcomes, Effect.deleteShoot ∈ (ReconcileShoot gardenerImports o terminatingShoot freshKey).1 →
      terminatingShoot.Meta.Annotations.lookup gardenerImports.ConfirmationDeletionTimestamp
        = some deletionTime) ∧
    (Effect.deleteShoot ∈
        (reconcileShootKey gardenerImports (controllerOf terminatingShoot allSucceed) freshKey).1 →
      hasFinalizer terminatingShoot.Meta gardenerImports.GardenerName = true ∧
      terminatingShoot.Meta.Annotations.lookup gardenerImports.ConfirmationDeletionTimestamp
        = some deletionTime) ∧
    (hasFinalizer terminatingShoot.Meta gardenerImports.GardenerName = false →
      reconcileShootKey gardenerImports (controllerOf terminatingShoot allSucceed) freshKey
        = ([Effect.Forget freshKey], Completion.Return none)) ∧
    (∀ (o : Outcomes) (finalizers : List String),
      ReconcileShoot gardenerImports o
          { terminatingShoot with
            Meta := { terminatingShoot.Meta with Finalizers := finalizers } } freshKey
        = ReconcileShoot gardenerImports o terminatingShoot freshKey) :=
  deleteShoot_needs_confirmation_and_finalizer gardenerImports
    (controllerOf terminatingShoot allSucceed) freshKey "garden-dev" "crazy-botany" deletionTime
    terminatingShoot (by rfl) (by rfl) (by rfl)

/-- C3: for a key that resolves to a shoot whose deletion timestamp is set and
whose finalizers do not contain the gardener finalizer, the calls of
`reconcileShootKey` are exactly one `shootQueue.Forget(key)` (hence no
`control.ReconcileShoot`, no `AddAfter`), and it returns nil. -/
theorem reconcileShootKey_forgets_without_finalizer (im : Imports) (c : Controller)
    (key namespace_ name : String) (shoot : Shoot)
    (hsplit : SplitMetaNamespaceKey key = .ok (namespace_, name))
    (hget : c.shootLister namespace_ name = .ok shoot)
    (hdel : shoot.Meta.DeletionTimestamp ≠ none)
    (hfin : hasFinalizer shoot.Meta im.GardenerName = false) :
    reconcileShootKey im c key = ([Effect.Forget key], Completion.Return none) ∧
    (reconcileShootKey im c key).1.count (Effect.Forget key) = 1 ∧
    (∀ s k, Effect.ReconcileShoot s k ∉ (reconcileShootKey im c key).1) ∧
    (∀ k d, Effect.AddAfter k d ∉ (reconcileShootKey im c key).1) := by
  have hsome : shoot.Meta.DeletionTimestamp.isSome = true := by
    cases hd : shoot.Meta.DeletionTimestamp with
    | none => exact absurd hd hdel
    | some T => rfl
  have hr := reconcileShootKey_forgets im c key namespace_ name shoot hsplit hget hsome hfin
  rw [hr]
  simp

theorem reconcileShootKey_forgets_without_finalizer_witness :
    reconcileShootKey gardenerImports
        (controllerOf { terminatingShoot with Meta := { terminatingShoot.Meta with
          Finalizers := ["kubernetes"] } } allSucceed) freshKey
      = ([Effect.Forget freshKey], Completion.Return none) ∧
    (reconcileShootKey gardenerImports
        (controllerOf { terminatingShoot with Meta := { terminatingShoot.Meta with
          Finalizers := ["kubernetes"] } } allSucceed) freshKey).1.count
        (Effect.Forget freshKey) = 1 ∧
    (∀ s k, Effect.ReconcileShoot s k ∉ (reconcileShootKey gardenerImports
        (controllerOf { terminatingShoot with Meta := { terminatingShoot.Meta with
          Finalizers := ["kubernetes"] } } allSucceed) freshKey).1) ∧
    (∀ k d, Effect.AddAfter k d ∉ (reconcileShootKey gardenerImports
        (controllerOf { terminatingShoot with Meta := { terminatingShoot.Meta with
          Finalizers := ["kubernetes"] } } allSucceed) freshKey).1) :=
  reconcileShootKey_forgets_without_finalizer gardenerImports
    (controllerOf { terminatingShoot with Meta := { terminatingShoot.Meta with
      Finalizers := ["kubernetes"] } } allSucceed) freshKey "garden-dev" "crazy-botany"
    { terminatingShoot with Meta := { terminatingShoot.Meta with Finalizers := ["kubernetes"] } }
    (by rfl) (by rfl) (by decide) (by rfl)

/-- C4 (as stated, refuted): the test on a failed last operation comes before
the test on the deletion timestamp. A confirmed terminating shoot carrying the
finalizer, whose last operation failed at the current generation, is skipped:
no status update, no `deleteShoot`. -/
theorem ReconcileShoot_skips_failed_confirmed_deletion :
    hasFinalizer terminatingShoot.Meta gardenerImports.GardenerName = true ∧
    terminatingShoot.Meta.Annotations.lookup gardenerImports.ConfirmationDeletionTimestamp
      = terminatingShoot.Meta.DeletionTimestamp ∧
    ReconcileShoot gardenerImports allSucceed
      { terminatingShoot with Status := {
          LastOperation := some { Type_ := .Delete, State := .Failed, Description := "timeout" }
          ObservedGeneration := 2 } } freshKey
      = ([], none) := by
  refine ⟨by rfl, by rfl, by rfl⟩

/-- C4 (amended): for a shoot with deletion timestamp `T` set and the
confirmation annotation equal to `T` that is not failed-and-unchanged (that
test precedes the deletion test), operation initialisation having succeeded
and whatever the finalizers, `ReconcileShoot` first emits the deleting event
and calls `updateShootStatusDeleteStart`; it never calls `reconcileShoot`;
when the start update succeeds it calls `deleteShoot` exactly once; and when
`deleteShoot` and the status updates succeed its calls are start, delete,
deleted event, `updateShootStatusDeleteSuccess`, and it returns nil. -/
theorem ReconcileShoot_confirmed_deletion (im : Imports) (o : Outcomes) (shoot : Shoot)
    (key T : String) (hnew : o.operationNew = none)
    (hfu : failedAndUnchanged shoot = false)
    (hdel : shoot.Meta.DeletionTimestamp = some T)
    (hann : shoot.Meta.Annotations.lookup im.ConfirmationDeletionTimestamp = some T) :
    (∃ rest, (ReconcileShoot im o shoot key).1 =
      Effect.Eventf .Normal .ShootEventDeleting ("[" ++ o.operationID ++ "] Deleting Shoot cluster")
        :: Effect.updateShootStatusDeleteStart :: rest) ∧
    (∀ t, Effect.reconcileShoot t ∉ (ReconcileShoot im o shoot key).1) ∧
    (o.updateShootStatusDeleteStart = none →
      (ReconcileShoot im o shoot key).1.count Effect.deleteShoot = 1) ∧
    (o.updateShootStatusDeleteStart = none → o.deleteShoot = none →
      o.updateShootStatusDeleteSuccess = none →
      ReconcileShoot im o shoot key =
        ([Effect.Eventf .Normal .ShootEventDeleting
            ("[" ++ o.operationID ++ "] Deleting Shoot cluster"),
          Effect.updateShootStatusDeleteStart,
          Effect.deleteShoot,
          Effect.Eventf .Normal .ShootEventDeleted
            ("[" ++ o.operationID ++ "] Deleted Shoot cluster"),
          Effect.updateShootStatusDeleteSuccess], none)) := by
  have hhas : HasAnnotation shoot.Meta im.ConfirmationDeletionTimestamp = true := by
    simp [ HasAnnotation, hann]
  have hcheck : CheckConfirmationDeletionTimestampValid im shoot.Meta = true := by
    simp [CheckConfirmationDeletionTimestampValid, hann, hdel]
  have hphase := ReconcileShoot_delete_phase im o shoot key hnew hfu (by simp [hdel]) hhas hcheck
  rw [hphase]
  cases h1 : o.updateShootStatusDeleteStart with
  | some e => simp
  | none =>
    cases h2 : o.deleteShoot with
    | some deleteErr => simp
    | none => simp

theorem ReconcileShoot_confirmed_deletion_witness :
    (∃ rest, (ReconcileShoot gardenerImports allSucceed terminatingShoot freshKey).1 =
      Effect.Eventf .Normal .ShootEventDeleting
          ("[" ++ allSucceed.operationID ++ "] Deleting Shoot cluster")
        :: Effect.updateShootStatusDeleteStart :: rest) ∧
    (∀ t, Effect.reconcileShoot t ∉
      (ReconcileShoot gardenerImports allSucceed terminatingShoot freshKey).1) ∧
    (allSucceed.updateShootStatusDeleteStart = none →
      (ReconcileShoot gardenerImports allSucceed terminatingShoot freshKey).1.count
        Effect.deleteShoot = 1) ∧
    (allSucceed.updateShootStatusDeleteStart = none → allSucceed.deleteShoot = none →
      allSucceed.updateShootStatusDeleteSuccess = none →
      ReconcileShoot gardenerImports allSucceed terminatingShoot freshKey =
        ([Effect.Eventf .Normal .ShootEventDeleting
            ("[" ++ allSucceed.operationID ++ "] Deleting Shoot cluster"),
          Effect.updateShootStatusDeleteStart,
          Effect.deleteShoot,
          Effect.Eventf .Normal .ShootEventDeleted
            ("[" ++ allSucceed.operationID ++ "] Deleted Shoot cluster"),
          Effect.updateShootStatusDeleteSuccess], none)) :=
  ReconcileShoot_confirmed_deletion gardenerImports allSucceed terminatingShoot freshKey
    deletionTime (by rfl) (by rfl) (by rfl) (by rfl)

/-! ## Creation and reconciliation -/

/-- C5 (as stated, refuted): a shoot whose last operation failed, whose
generation differs from the observed one and which has no deletion timestamp
does not reach `reconcileShoot` when the start status update fails:
`ReconcileShoot` returns that error after the update. -/
theorem ReconcileShoot_start_failure_prevents_reconcile :
    ReconcileShoot gardenerImports
      { allSucceed with updateShootStatusReconcileStart := fun _ => some conflictError }
      { failedShoot with Meta := { failedShoot.Meta with Generation := 2 } } freshKey
      = ([Effect.Eventf .Normal .ShootEventReconciling
            "[a1b2c3d4] Reconciling Shoot cluster state",
          Effect.updateShootStatusReconcileStart .Reconcile], some conflictError) ∧
    ∀ t, Effect.reconcileShoot t ∉ (ReconcileShoot gardenerImports
      { allSucceed with updateShootStatusReconcileStart := fun _ => some conflictError }
      { failedShoot with Meta := { failedShoot.Meta with Generation := 2 } } freshKey).1 := by
  have h : ReconcileShoot gardenerImports
      { allSucceed with updateShootStatusReconcileStart := fun _ => some conflictError }
      { failedShoot with Meta := { failedShoot.Meta with Generation := 2 } } freshKey
      = ([Effect.Eventf .Normal .ShootEventReconciling
            "[a1b2c3d4] Reconciling Shoot cluster state",
          Effect.updateShootStatusReconcileStart .Reconcile], some conflictError) := by rfl
  refine ⟨h, ?_⟩
  intro t
  rw [h]
  simp

/-- C5 (amended): for a shoot whose last operation is non-nil with state
`Failed` and whose generation equals the observed generation,
`ReconcileShoot`, operation initialisation having succeeded, makes no call at
all (no `reconcileShoot`, no status update, no event) and returns nil; for the
shoot that differs only in its generation, not equal to the observed one, and
has no deletion timestamp, `reconcileShoot` is invoked exactly once, with the
operation type chosen from the last operation and with no other type,
provided the start status update succeeds; when that update fails with `e`,
`reconcileShoot` is not invoked with any type, the calls are the reconciling
event and the start update alone, and `ReconcileShoot` returns `e`. -/
theorem ReconcileShoot_skips_failed_unchanged (im : Imports) (o : Outcomes) (shoot : Shoot)
    (key : String) (op : LastOperation) (hnew : o.operationNew = none)
    (hop : shoot.Status.LastOperation = some op)
    (hstate : op.State = ShootLastOperationState.Failed)
    (hgen : shoot.Meta.Generation = shoot.Status.ObservedGeneration) :
    ReconcileShoot im o shoot key = ([], none) ∧
    ∀ g : Int, g ≠ shoot.Status.ObservedGeneration → shoot.Meta.DeletionTimestamp = none →
      (o.updateShootStatusReconcileStart (operationTypeOf (some op)) = none →
        (ReconcileShoot im o { shoot with Meta := { shoot.Meta with Generation := g } } key).1.count
          (Effect.reconcileShoot (operationTypeOf (some op))) = 1) ∧
      (o.updateShootStatusReconcileStart (operationTypeOf (some op)) ≠ none →
        ∀ t, Effect.reconcileShoot t ∉
          (ReconcileShoot im o { shoot with Meta := { shoot.Meta with Generation := g } } key).1) ∧
      (∀ t, Effect.reconcileShoot t ∈
          (ReconcileShoot im o { shoot with Meta := { shoot.Meta with Generation := g } } key).1 →
        t = operationTypeOf (some op)) ∧
      (∀ e : GoError, o.updateShootStatusReconcileStart (operationTypeOf (some op)) = some e →
        ReconcileShoot im o { shoot with Meta := { shoot.Meta with Generation := g } } key =
          ([Effect.Eventf .Normal .ShootEventReconciling
              ("[" ++ o.operationID ++ "] Reconciling Shoot cluster state"),
            Effect.updateShootStatusReconcileStart (operationTypeOf (some op))], some e)) := by
  constructor
  · apply ReconcileShoot_failedAndUnchanged im o shoot key hnew
    simp [failedAndUnchanged, hop, hstate, hgen]
  · intro g hg hdel
    have hfu : failedAndUnchanged { shoot with Meta := { shoot.Meta with Generation := g } }
        = false := by
      simp [failedAndUnchanged, hop, hstate, hg]
    have hphase := ReconcileShoot_reconcile_phase im o
      { shoot with Meta := { shoot.Meta with Generation := g } } key hnew hfu hdel
    simp only [hop] at hphase
    rw [hphase]
    refine ⟨?_, ?_, ?_, ?_⟩
    · intro hstart
      rw [hstart]
      cases o.reconcileShoot (operationTypeOf (some op)) <;> simp
    · intro hstart
      cases hs : o.updateShootStatusReconcileStart (operationTypeOf (some op)) with
      | none => exact absurd hs hstart
      | some e => simp
    · intro t hmem
      cases hs : o.updateShootStatusReconcileStart (operationTypeOf (some op)) with
      | some e =>
        rw [hs] at hmem
        simp at hmem
      | none =>
        rw [hs] at hmem
        cases hf : o.reconcileShoot (operationTypeOf (some op)) with
        | some reconcileErr =>
          rw [hf] at hmem
          simpa using hmem
        | none =>
          rw [hf] at hmem
          simpa using hmem
    · intro e hstart
      rw [hstart]

theorem ReconcileShoot_skips_failed_unchanged_witness :
    ReconcileShoot gardenerImports allSucceed failedShoot freshKey = ([], none) ∧
    ∀ g : Int, g ≠ failedShoot.Status.ObservedGeneration →
      failedShoot.Meta.DeletionTimestamp = none →
      (allSucceed.updateShootStatusReconcileStart (operationTypeOf
          (some { Type_ := .Reconcile, State := .Failed, Description := "disk full" })) = none →
        (ReconcileShoot gardenerImports allSucceed
          { failedShoot with Meta := { failedShoot.Meta with Generation := g } } freshKey).1.count
          (Effect.reconcileShoot (operationTypeOf
            (some { Type_ := .Reconcile, State := .Failed, Description := "disk full" }))) = 1) ∧
      (allSucceed.updateShootStatusReconcileStart (operationTypeOf
          (some { Type_ := .Reconcile, State := .Failed, Description := "disk full" })) ≠ none →
        ∀ t, Effect.reconcileShoot t ∉
          (ReconcileShoot gardenerImports allSucceed
            { failedShoot with Meta := { failedShoot.Meta with Generation := g } } freshKey).1) ∧
      (∀ t, Effect.reconcileShoot t ∈
          (ReconcileShoot gardenerImports allSucceed
            { failedShoot with Meta := { failedShoot.Meta with Generation := g } } freshKey).1 →
        t = operationTypeOf
          (some { Type_ := .Reconcile, State := .Failed, Description := "disk full" })) ∧
      (∀ e : GoError, allSucceed.updateShootStatusReconcileStart (operationTypeOf
          (some { Type_ := .Reconcile, State := .Failed, Description := "disk full" })) = some e →
        ReconcileShoot gardenerImports allSucceed
            { failedShoot with Meta := { failedShoot.Meta with Generation := g } } freshKey =
          ([Effect.Eventf .Normal .ShootEventReconciling
              ("[" ++ allSucceed.operationID ++ "] Reconciling Shoot cluster state"),
            Effect.updateShootStatusReconcileStart (operationTypeOf
              (some { Type_ := .Reconcile, State := .Failed, Description := "disk full" }))],
           some e)) :=
  ReconcileShoot_skips_failed_unchanged gardenerImports allSucceed failedShoot freshKey
    { Type_ := .Reconcile, State := .Failed, Description := "disk full" }
    (by rfl) (by rfl) (by rfl) (by rfl)

/-- C6 (as stated, refuted): the test on a failed last operation comes before
the choice of the operation type. A shoot without deletion timestamp whose
last operation is `Create` in state `Failed` at the current generation is
skipped: neither `updateShootStatusReconcileStart` nor `reconcileShoot` is
invoked. -/
theorem ReconcileShoot_skips_failed_create :
    ReconcileShoot gardenerImports allSucceed
      { failedShoot with Status := {
          LastOperation := some { Type_ := .Create, State := .Failed, Description := "quota" }
          ObservedGeneration := 1 } } freshKey
      = ([], none) := by
  rfl

/-- C6 (amended): for a shoot without deletion timestamp that is not
failed-and-unchanged and whose last operation is nil or has type `Create` and
a state other than `Succeeded`, `ReconcileShoot`, operation initialisation
having succeeded, runs the phase sequence with operation type `Create`: it
emits the reconciling event and calls `updateShootStatusReconcileStart` with
`Create`; every start update and every `reconcileShoot` it calls has type
`Create`; and when the start update succeeds it calls `reconcileShoot` with
`Create` exactly once. -/
theorem ReconcileShoot_runs_create (im : Imports) (o : Outcomes) (shoot : Shoot)
    (key : String) (hnew : o.operationNew = none)
    (hfu : failedAndUnchanged shoot = false)
    (hdel : shoot.Meta.DeletionTimestamp = none)
    (hlast : shoot.Status.LastOperation = none
      ∨ ∃ op, shoot.Status.LastOperation = some op
          ∧ op.Type_ = ShootLastOperationType.Create
          ∧ op.State ≠ ShootLastOperationState.Succeeded) :
    (∃ rest, (ReconcileShoot im o shoot key).1 =
      Effect.Eventf .Normal .ShootEventReconciling
          ("[" ++ o.operationID ++ "] Reconciling Shoot cluster state")
        :: Effect.updateShootStatusReconcileStart .Create :: rest) ∧
    (∀ t, Effect.updateShootStatusReconcileStart t ∈ (ReconcileShoot im o shoot key).1
        ∨ Effect.reconcileShoot t ∈ (ReconcileShoot im o shoot key).1 →
      t = ShootLastOperationType.Create) ∧
    (o.updateShootStatusReconcileStart .Create = none →
      (ReconcileShoot im o shoot key).1.count (Effect.reconcileShoot .Create) = 1) := by
  have htype : operationTypeOf shoot.Status.LastOperation = ShootLastOperationType.Create := by
    rcases hlast with h | ⟨op, h, hty, hst⟩
    · simp [operationTypeOf, h]
    · simp [operationTypeOf, h, hty, hst]
  have hphase := ReconcileShoot_reconcile_phase im o shoot key hnew hfu hdel
  rw [htype] at hphase
  rw [hphase]
  cases h1 : o.updateShootStatusReconcileStart .Create with
  | some e => simp
  | none =>
    cases h2 : o.reconcileShoot .Create with
    | some reconcileErr => simp
    | none => simp

theorem ReconcileShoot_runs_create_witness :
    (∃ rest, (ReconcileShoot gardenerImports allSucceed freshShoot freshKey).1 =
      Effect.Eventf .Normal .ShootEventReconciling
          ("[" ++ allSucceed.operationID ++ "] Reconciling Shoot cluster state")
        :: Effect.updateShootStatusReconcileStart .Create :: rest) ∧
    (∀ t, Effect.updateShootStatusReconcileStart t
          ∈ (ReconcileShoot gardenerImports allSucceed freshShoot freshKey).1
        ∨ Effect.reconcileShoot t
          ∈ (ReconcileShoot gardenerImports allSucceed freshShoot freshKey).1 →
      t = ShootLastOperationType.Create) ∧
    (allSucceed.updateShootStatusReconcileStart .Create = none →
      (ReconcileShoot gardenerImports allSucceed freshShoot freshKey).1.count
        (Effect.reconcileShoot .Create) = 1) :=
  ReconcileShoot_runs_create gardenerImports allSucceed freshShoot freshKey
    (by rfl) (by rfl) (by rfl) (Or.inl (by rfl))

/-! ## All runs of the lifecycle control -/

theorem ReconcileShoot_cases (im : Imports) (o : Outcomes) (shoot : Shoot) (key : String) :
    (∃ err, o.operationNew = some err ∧ ReconcileShoot im o shoot key = ([], some err)) ∨
    (o.operationNew = none ∧ ReconcileShoot im o shoot key = ([], none)) ∨
    (o.operationNew = none ∧ failedAndUnchanged shoot = false ∧
      (∃ T, shoot.Meta.DeletionTimestamp = some T ∧
        shoot.Meta.Annotations.lookup im.ConfirmationDeletionTimestamp = some T) ∧
      ReconcileShoot im o shoot key = deleteSequence o) ∨
    (o.operationNew = none ∧ failedAndUnchanged shoot = false ∧
      shoot.Meta.DeletionTimestamp = none ∧
      ReconcileShoot im o shoot key
        = reconcileSequence o (operationTypeOf shoot.Status.LastOperation)) := by
  cases hnew : o.operationNew with
  | some err =>
    exact Or.inl ⟨err, rfl, ReconcileShoot_operationNew_fails im o shoot key err hnew⟩
  | none =>
    right
    cases hfu : failedAndUnchanged shoot with
    | true => exact Or.inl ⟨rfl, ReconcileShoot_failedAndUnchanged im o shoot key hnew hfu⟩
    | false =>
      cases hdel : shoot.Meta.DeletionTimestamp with
      | none =>
        exact Or.inr (Or.inr ⟨rfl, rfl, rfl,
          ReconcileShoot_reconcile_phase im o shoot key hnew hfu hdel⟩)
      | some T =>
        by_cases hann : shoot.Meta.Annotations.lookup im.ConfirmationDeletionTimestamp = some T
        · refine Or.inr (Or.inl ⟨rfl, rfl, ⟨T, rfl, hann⟩, ?_⟩)
          have hhas : HasAnnotation shoot.Meta im.ConfirmationDeletionTimestamp = true := by
            simp [ HasAnnotation, hann]
          have hcheck : CheckConfirmationDeletionTimestampValid im shoot.Meta = true := by
            simp [CheckConfirmationDeletionTimestampValid, hann, hdel]
          exact ReconcileShoot_delete_phase im o shoot key hnew hfu (by simp [hdel]) hhas hcheck
        · exact Or.inl ⟨rfl, ReconcileShoot_unconfirmed im o shoot key hnew (by simp [hdel])
            ((unconfirmed_iff im shoot.Meta T hdel).mpr hann)⟩

theorem ReconcileShoot_no_dispatcher_call (im : Imports) (o : Outcomes) (shoot : Shoot)
    (key : String) :
    ∀ e ∈ (ReconcileShoot im o shoot key).1, isDispatcherCall e = false := by
  rcases ReconcileShoot_cases im o shoot key with
    ⟨err, _, h⟩ | ⟨_, h⟩ | ⟨_, _, _, h⟩ | ⟨_, _, _, h⟩
  · rw [h]; simp
  · rw [h]; simp
  · rw [h]
    unfold deleteSequence
    cases o.updateShootStatusDeleteStart with
    | some e => simp [isDispatcherCall]
    | none => cases o.deleteShoot <;> simp [isDispatcherCall]
  · rw [h]
    unfold reconcileSequence
    cases o.updateShootStatusReconcileStart (operationTypeOf shoot.Status.LastOperation) with
    | some e => simp [isDispatcherCall]
    | none =>
      cases o.reconcileShoot (operationTypeOf shoot.Status.LastOperation) <;>
        simp [isDispatcherCall]

/-! ## Override of the sync period -/

/-- C11: when the sync-period annotation parses to a duration `o` of at least
one minute (exactly one minute included), `RespectSyncPeriodOverwrite` is true
and `errorOccured` is false, `scheduleNextSync` divides by `o`, returns a
delay, and that delay is the one computed for the metadata without the
annotation under a configuration whose `SyncPeriod` is `o`, whatever the
configured `SyncPeriod`. -/
theorem scheduleNextSync_takes_long_override (im : Imports) (now : Int)
    (objectMeta : ObjectMeta) (config : ShootControllerConfiguration) (value : String)
    (override : Int)
    (hann : objectMeta.Annotations.lookup im.ShootSyncPeriod = some value)
    (hparse : im.ParseDuration value = .ok override)
    (hmin : Minute ≤ override)
    (hr : config.RespectSyncPeriodOverwrite = some true) :
    effectiveSyncPeriod im objectMeta config true = override ∧
    (∃ d, scheduleNextSync im now objectMeta false config = some d) ∧
    ∀ syncPeriod : Int,
      scheduleNextSync im now objectMeta false { config with SyncPeriod := syncPeriod }
        = scheduleNextSync im now (eraseAnnotationKey objectMeta im.ShootSyncPeriod) false
            { config with SyncPeriod := override } := by
  have hper : ∀ cfg : ShootControllerConfiguration,
      effectiveSyncPeriod im objectMeta cfg true = override := by
    intro cfg
    unfold effectiveSyncPeriod
    rw [hann]
    have hge : override ≥ Minute := hmin
    simp [hparse, hge]
  have hne : override ≠ 0 := by
    unfold Minute at hmin
    omega
  refine ⟨hper config, ?_, ?_⟩
  · rw [scheduleNextSync_success im now objectMeta config true hr, hper config, if_neg hne]
    exact ⟨_, rfl⟩
  · intro syncPeriod
    rw [scheduleNextSync_success im now objectMeta { config with SyncPeriod := syncPeriod }
        true hr,
      scheduleNextSync_success im now (eraseAnnotationKey objectMeta im.ShootSyncPeriod)
        { config with SyncPeriod := override } true hr,
      hper, effectiveSyncPeriod_eraseAnnotationKey]
    rfl

theorem scheduleNextSync_takes_long_override_witness :
    effectiveSyncPeriod gardenerImports
        { freshShoot.Meta with Annotations := [("shoot.garden.sapcloud.io/sync-period", "1m")] }
        hourlyConfig true = 60000000000 ∧
    (∃ d, scheduleNextSync gardenerImports 1520000001000000000
        { freshShoot.Meta with Annotations := [("shoot.garden.sapcloud.io/sync-period", "1m")] }
        false hourlyConfig = some d) ∧
    ∀ syncPeriod : Int,
      scheduleNextSync gardenerImports 1520000001000000000
          { freshShoot.Meta with Annotations := [("shoot.garden.sapcloud.io/sync-period", "1m")] }
          false { hourlyConfig with SyncPeriod := syncPeriod }
        = scheduleNextSync gardenerImports 1520000001000000000
            (eraseAnnotationKey
              { freshShoot.Meta with
                Annotations := [("shoot.garden.sapcloud.io/sync-period", "1m")] }
              gardenerImports.ShootSyncPeriod) false
            { hourlyConfig with SyncPeriod := 60000000000 } :=
  scheduleNextSync_takes_long_override gardenerImports 1520000001000000000
    { freshShoot.Meta with Annotations := [("shoot.garden.sapcloud.io/sync-period", "1m")] }
    hourlyConfig "1m" 60000000000 (by rfl) (by rfl) (by decide) (by rfl)

/-! ## Event handlers -/

/-- C12: for an update notification `(old, new)` whose new object has the key
`key`, `shootUpdate` adds exactly that key to the shoot queue when
`new.Generation` differs from `new.Status.ObservedGeneration` and makes no
call when they are equal, so the key is enqueued if and only if they differ;
the old object has no influence. -/
theorem shootUpdate_enqueues_iff_generation_differs (oldObj newObj : Shoot) (key : String)
    (hkey : MetaNamespaceKeyFunc newObj = .ok key) :
    (newObj.Meta.Generation ≠ newObj.Status.ObservedGeneration →
      shootUpdate oldObj newObj = [Effect.Add key]) ∧
    (newObj.Meta.Generation = newObj.Status.ObservedGeneration →
      shootUpdate oldObj newObj = []) ∧
    (Effect.Add key ∈ shootUpdate oldObj newObj ↔
      newObj.Meta.Generation ≠ newObj.Status.ObservedGeneration) ∧
    (∀ otherOld : Shoot, shootUpdate otherOld newObj = shootUpdate oldObj newObj) := by
  have hne : newObj.Meta.Generation ≠ newObj.Status.ObservedGeneration →
      shootUpdate oldObj newObj = [Effect.Add key] := by
    intro h
    simp [shootUpdate, shootAdd, hkey, h]
  have heq : newObj.Meta.Generation = newObj.Status.ObservedGeneration →
      shootUpdate oldObj newObj = [] := by
    intro h
    simp [shootUpdate, h]
  refine ⟨hne, heq, ?_, fun _ => rfl⟩
  by_cases h : newObj.Meta.Generation = newObj.Status.ObservedGeneration
  · rw [heq h]
    simp [h]
  · rw [hne h]
    simp [h]

theorem shootUpdate_enqueues_iff_generation_differs_witness :
    (changedShoot.Meta.Generation ≠ changedShoot.Status.ObservedGeneration →
      shootUpdate freshShoot changedShoot = [Effect.Add freshKey]) ∧
    (changedShoot.Meta.Generation = changedShoot.Status.ObservedGeneration →
      shootUpdate freshShoot changedShoot = []) ∧
    (Effect.Add freshKey ∈ shootUpdate freshShoot changedShoot ↔
      changedShoot.Meta.Generation ≠ changedShoot.Status.ObservedGeneration) ∧
    (∀ otherOld : Shoot, shootUpdate otherOld changedShoot
      = shootUpdate freshShoot changedShoot) :=
  shootUpdate_enqueues_iff_generation_differs freshShoot changedShoot freshKey (by rfl)

theorem scheduleNextSync_eq_none_iff (im : Imports) (now : Int) (objectMeta : ObjectMeta)
    (errorOccured : Bool) (config : ShootControllerConfiguration) :
    scheduleNextSync im now objectMeta errorOccured config = none ↔
      (errorOccured = true ∧ config.RetrySyncPeriod = none)
      ∨ (errorOccured = false
        ∧ (config.RespectSyncPeriodOverwrite = none
          ∨ ∃ respect, config.RespectSyncPeriodOverwrite = some respect
              ∧ effectiveSyncPeriod im objectMeta config respect = 0)) := by
  cases errorOccured with
  | true => simp [scheduleNextSync]
  | false =>
    cases hr : config.RespectSyncPeriodOverwrite with
    | none => simp [scheduleNextSync, hr]
    | some respect =>
      rw [scheduleNextSync_success im now objectMeta config respect hr]
      by_cases hz : effectiveSyncPeriod im objectMeta config respect = 0
      · simp [hz]
      · simp [hz]

/-! ## The dispatcher -/

/-- C13 (as stated, refuted): with a configured `SyncPeriod` of zero the
remainder in `scheduleNextSync` divides by zero. `reconcileShootKey` has then
called `control.ReconcileShoot`, which succeeded, and panics: it makes no
`AddAfter` call and does not return nil. -/
theorem reconcileShootKey_panics_on_zero_period :
    reconcileShootKey gardenerImports
      { controllerOf freshShoot allSucceed with
        config := { hourlyConfig with SyncPeriod := 0 } } freshKey
      = ([Effect.ReconcileShoot freshShoot freshKey,
          Effect.Eventf .Normal .ShootEventReconciling
            "[a1b2c3d4] Reconciling Shoot cluster state",
          Effect.updateShootStatusReconcileStart .Create,
          Effect.reconcileShoot .Create,
          Effect.Eventf .Normal .ShootEventReconciled
            "[a1b2c3d4] Reconciled Shoot cluster state",
          Effect.updateShootStatusReconcileSuccess .Create], Completion.Panic) := by
  rfl

/-- C13 (amended): for a key that resolves to a shoot that is not (terminating
and lacking the gardener finalizer), and provided
`scheduleNextSync(shoot.ObjectMeta, reconcileErr != nil, config)` returns a
duration `d`, the calls of `reconcileShootKey` are `control.ReconcileShoot`,
the calls made inside it, then `AddAfter(key, d)`; its own calls are exactly
these two, each once and no `Forget`; it returns nil; `d` is the configured
`RetrySyncPeriod` when `ReconcileShoot` returned an error and the
success-path delay when it returned nil, which is the case when it skipped by
policy (failed-and-unchanged, unconfirmed deletion). `scheduleNextSync` fails
to return exactly when the pointer it dereferences is nil (`RetrySyncPeriod`
on the error path, `RespectSyncPeriodOverwrite` on the success path) or the
effective sync period is zero. -/
theorem reconcileShootKey_reschedules (im : Imports) (c : Controller)
    (key namespace_ name : String) (shoot : Shoot) (d : Int)
    (hsplit : SplitMetaNamespaceKey key = .ok (namespace_, name))
    (hget : c.shootLister namespace_ name = .ok shoot)
    (hnot : ¬ (shoot.Meta.DeletionTimestamp ≠ none
      ∧ hasFinalizer shoot.Meta im.GardenerName = false))
    (hd : scheduleNextSync im c.now shoot.Meta
      (ReconcileShoot im c.control shoot key).2.isSome c.config = some d) :
    reconcileShootKey im c key =
      (Effect.ReconcileShoot shoot key :: (ReconcileShoot im c.control shoot key).1
        ++ [Effect.AddAfter key d], Completion.Return none) ∧
    (reconcileShootKey im c key).1.filter isDispatcherCall
      = [Effect.ReconcileShoot shoot key, Effect.AddAfter key d] ∧
    ((ReconcileShoot im c.control shoot key).2 ≠ none →
      c.config.RetrySyncPeriod = some d) ∧
    ((ReconcileShoot im c.control shoot key).2 = none →
      scheduleNextSync im c.now shoot.Meta false c.config = some d) ∧
    (c.control.operationNew = none →
      (failedAndUnchanged shoot = true
        ∨ (shoot.Meta.DeletionTimestamp ≠ none
          ∧ ( HasAnnotation shoot.Meta im.ConfirmationDeletionTimestamp = false
            ∨ CheckConfirmationDeletionTimestampValid im shoot.Meta = false))) →
      ReconcileShoot im c.control shoot key = ([], none)) ∧
    (∀ errorOccured : Bool,
      scheduleNextSync im c.now shoot.Meta errorOccured c.config = none ↔
        (errorOccured = true ∧ c.config.RetrySyncPeriod = none)
        ∨ (errorOccured = false
          ∧ (c.config.RespectSyncPeriodOverwrite = none
            ∨ ∃ respect, c.config.RespectSyncPeriodOverwrite = some respect
                ∧ effectiveSyncPeriod im shoot.Meta c.config respect = 0))) := by
  have hcond : (shoot.Meta.DeletionTimestamp.isSome
      && !hasFinalizer shoot.Meta im.GardenerName) = false := by
    cases hdel : shoot.Meta.DeletionTimestamp with
    | none => simp
    | some T =>
      cases hfin : hasFinalizer shoot.Meta im.GardenerName with
      | true => simp
      | false => exact absurd ⟨by simp [hdel], hfin⟩ hnot
  have hrun := reconcileShootKey_reconciles im c key namespace_ name shoot hsplit hget hcond
  rw [hd] at hrun
  have hnone : (ReconcileShoot im c.control shoot key).1.filter isDispatcherCall = [] := by
    rw [List.filter_eq_nil_iff]
    intro e he
    simp [ReconcileShoot_no_dispatcher_call im c.control shoot key e he]
  refine ⟨hrun, ?_, ?_, ?_, ?_,
    fun errorOccured => scheduleNextSync_eq_none_iff im c.now shoot.Meta errorOccured c.config⟩
  · rw [hrun]
    simp [List.filter_cons, List.filter_append, hnone, isDispatcherCall]
  · intro herr
    cases hres : (ReconcileShoot im c.control shoot key).2 with
    | none => exact absurd hres herr
    | some e =>
      rw [hres] at hd
      simpa [scheduleNextSync] using hd
  · intro hok
    rw [hok] at hd
    simpa using hd
  · intro hnew hskip
    rcases hskip with hfu | ⟨hdel, hun⟩
    · exact ReconcileShoot_failedAndUnchanged im c.control shoot key hnew hfu
    · apply ReconcileShoot_unconfirmed im c.control shoot key hnew _ hun
      cases hd2 : shoot.Meta.DeletionTimestamp with
      | none => exact absurd hd2 hdel
      | some T => rfl

theorem reconcileShootKey_reschedules_witness :
    reconcileShootKey gardenerImports (controllerOf changedShoot flowsFail) freshKey =
      (Effect.ReconcileShoot changedShoot freshKey
        :: (ReconcileShoot gardenerImports (controllerOf changedShoot flowsFail).control
            changedShoot freshKey).1
        ++ [Effect.AddAfter freshKey 15000000000], Completion.Return none) ∧
    (reconcileShootKey gardenerImports (controllerOf changedShoot flowsFail) freshKey).1.filter
        isDispatcherCall
      = [Effect.ReconcileShoot changedShoot freshKey, Effect.AddAfter freshKey 15000000000] ∧
    ((ReconcileShoot gardenerImports (controllerOf changedShoot flowsFail).control
        changedShoot freshKey).2 ≠ none →
      (controllerOf changedShoot flowsFail).config.RetrySyncPeriod = some 15000000000) ∧
    ((ReconcileShoot gardenerImports (controllerOf changedShoot flowsFail).control
        changedShoot freshKey).2 = none →
      scheduleNextSync gardenerImports (controllerOf changedShoot flowsFail).now
        changedShoot.Meta false (controllerOf changedShoot flowsFail).config
        = some 15000000000) ∧
    ((controllerOf changedShoot flowsFail).control.operationNew = none →
      (failedAndUnchanged changedShoot = true
        ∨ (changedShoot.Meta.DeletionTimestamp ≠ none
          ∧ ( HasAnnotation changedShoot.Meta gardenerImports.ConfirmationDeletionTimestamp
              = false
            ∨ CheckConfirmationDeletionTimestampValid gardenerImports changedShoot.Meta
              = false))) →
      ReconcileShoot gardenerImports (controllerOf changedShoot flowsFail).control
        changedShoot freshKey = ([], none)) ∧
    (∀ errorOccured : Bool,
      scheduleNextSync gardenerImports (controllerOf changedShoot flowsFail).now
          changedShoot.Meta errorOccured (controllerOf changedShoot flowsFail).config = none ↔
        (errorOccured = true
          ∧ (controllerOf changedShoot flowsFail).config.RetrySyncPeriod = none)
        ∨ (errorOccured = false
          ∧ ((controllerOf changedShoot flowsFail).config.RespectSyncPeriodOverwrite = none
            ∨ ∃ respect,
                (controllerOf changedShoot flowsFail).config.RespectSyncPeriodOverwrite
                  = some respect
                ∧ effectiveSyncPeriod gardenerImports changedShoot.Meta
                    (controllerOf changedShoot flowsFail).config respect = 0))) :=
  reconcileShootKey_reschedules gardenerImports (controllerOf changedShoot flowsFail) freshKey
    "garden-dev" "crazy-botany" changedShoot 15000000000 (by rfl) (by rfl) (by decide)
    (by rfl)

/-! ## Failures inside a phase sequence -/

theorem deleteSequence_of_start_ok_delete_fails (o : Outcomes) (deleteErr : LastError)
    (hstart : o.updateShootStatusDeleteStart = none) (hfail : o.deleteShoot = some deleteErr) :
    deleteSequence o =
      ([Effect.Eventf .Normal .ShootEventDeleting
          ("[" ++ o.operationID ++ "] Deleting Shoot cluster"),
        Effect.updateShootStatusDeleteStart, Effect.deleteShoot,
        Effect.Eventf .Warning .ShootEventDeleteError
          ("[" ++ o.operationID ++ "] " ++ deleteErr.Description),
        Effect.updateShootStatusDeleteError deleteErr],
       match o.updateShootStatusDeleteError deleteErr with
       | some updateErr => some updateErr
       | none => some (errorsNew deleteErr.Description)) := by
  unfold deleteSequence
  rw [hstart, hfail]

theorem reconcileSequence_of_start_ok_reconcile_fails (o : Outcomes)
    (t : ShootLastOperationType) (reconcileErr : LastError)
    (hstart : o.updateShootStatusReconcileStart t = none)
    (hfail : o.reconcileShoot t = some reconcileErr) :
    reconcileSequence o t =
      ([Effect.Eventf .Normal .ShootEventReconciling
          ("[" ++ o.operationID ++ "] Reconciling Shoot cluster state"),
        Effect.updateShootStatusReconcileStart t,
        Effect.reconcileShoot t,
        Effect.Eventf .Warning .ShootEventReconcileError
          ("[" ++ o.operationID ++ "] " ++ reconcileErr.Description),
        Effect.updateShootStatusReconcileError t reconcileErr],
       match o.updateShootStatusReconcileError t reconcileErr with
       | some updateErr => some updateErr
       | none => some (errorsNew reconcileErr.Description)) := by
  unfold reconcileSequence
  rw [hstart, hfail]

theorem deleteStart_mem_ReconcileShoot (im : Imports) (o : Outcomes) (shoot : Shoot)
    (key : String)
    (hmem : Effect.updateShootStatusDeleteStart ∈ (ReconcileShoot im o shoot key).1) :
    ReconcileShoot im o shoot key = deleteSequence o := by
  rcases ReconcileShoot_cases im o shoot key with
    ⟨err, _, h⟩ | ⟨_, h⟩ | ⟨_, _, _, h⟩ | ⟨_, _, _, h⟩
  · rw [h] at hmem; simp at hmem
  · rw [h] at hmem; simp at hmem
  · exact h
  · rw [h] at hmem
    unfold reconcileSequence at hmem
    cases h1 : o.updateShootStatusReconcileStart (operationTypeOf shoot.Status.LastOperation) with
    | some e => rw [h1] at hmem; simp at hmem
    | none =>
      rw [h1] at hmem
      cases h2 : o.reconcileShoot (operationTypeOf shoot.Status.LastOperation) with
      | some e => rw [h2] at hmem; simp at hmem
      | none => rw [h2] at hmem; simp at hmem

theorem reconcileStart_mem_ReconcileShoot (im : Imports) (o : Outcomes) (shoot : Shoot)
    (key : String) (t : ShootLastOperationType)
    (hmem : Effect.updateShootStatusReconcileStart t ∈ (ReconcileShoot im o shoot key).1) :
    t = operationTypeOf shoot.Status.LastOperation ∧
    ReconcileShoot im o shoot key = reconcileSequence o t := by
  rcases ReconcileShoot_cases im o shoot key with
    ⟨err, _, h⟩ | ⟨_, h⟩ | ⟨_, _, _, h⟩ | ⟨_, _, _, h⟩
  · rw [h] at hmem; simp at hmem
  · rw [h] at hmem; simp at hmem
  · rw [h] at hmem
    unfold deleteSequence at hmem
    cases h1 : o.updateShootStatusDeleteStart with
    | some e => rw [h1] at hmem; simp at hmem
    | none =>
      rw [h1] at hmem
      cases h2 : o.deleteShoot with
      | some e => rw [h2] at hmem; simp at hmem
      | none => rw [h2] at hmem; simp at hmem
  · have ht : t = operationTypeOf shoot.Status.LastOperation := by
      rw [h] at hmem
      unfold reconcileSequence at hmem
      cases h1 : o.updateShootStatusReconcileStart
          (operationTypeOf shoot.Status.LastOperation) with
      | some e => rw [h1] at hmem; simpa using hmem
      | none =>
        rw [h1] at hmem
        cases h2 : o.reconcileShoot (operationTypeOf shoot.Status.LastOperation) with
        | some e => rw [h2] at hmem; simpa using hmem
        | none => rw [h2] at hmem; simpa using hmem
    exact ⟨ht, by rw [ht]; exact h⟩

/-- C14: in a run of `ReconcileShoot` in which the start status update is made
and succeeds and the delegated flow fails (`deleteShoot` for the delete
sequence, `reconcileShoot` with type `t` otherwise): the matching error update
(`updateShootStatusDeleteError`, or `updateShootStatusReconcileError` with the
same type `t`) is called exactly once, with that failure and no other; the
success update is never called; when the error update fails with `e`,
`ReconcileShoot` returns `e`; otherwise it returns the error made by
`errors.New` from the description of the failure, whose message is that
description. -/
theorem ReconcileShoot_records_flow_failure (im : Imports) (o : Outcomes) (shoot : Shoot)
    (key : String) :
    (∀ deleteErr : LastError,
      Effect.updateShootStatusDeleteStart ∈ (ReconcileShoot im o shoot key).1 →
      o.updateShootStatusDeleteStart = none → o.deleteShoot = some deleteErr →
      (ReconcileShoot im o shoot key).1.count (Effect.updateShootStatusDeleteError deleteErr) = 1 ∧
      (∀ other, Effect.updateShootStatusDeleteError other ∈ (ReconcileShoot im o shoot key).1 →
        other = deleteErr) ∧
      Effect.updateShootStatusDeleteSuccess ∉ (ReconcileShoot im o shoot key).1 ∧
      (∀ e, o.updateShootStatusDeleteError deleteErr = some e →
        (ReconcileShoot im o shoot key).2 = some e) ∧
      (o.updateShootStatusDeleteError deleteErr = none →
        (ReconcileShoot im o shoot key).2 = some (errorsNew deleteErr.Description) ∧
        (errorsNew deleteErr.Description).Message = deleteErr.Description)) ∧
    (∀ (t : ShootLastOperationType) (reconcileErr : LastError),
      Effect.updateShootStatusReconcileStart t ∈ (ReconcileShoot im o shoot key).1 →
      o.updateShootStatusReconcileStart t = none → o.reconcileShoot t = some reconcileErr →
      (ReconcileShoot im o shoot key).1.count
        (Effect.updateShootStatusReconcileError t reconcileErr) = 1 ∧
      (∀ otherType other,
        Effect.updateShootStatusReconcileError otherType other
          ∈ (ReconcileShoot im o shoot key).1 →
        otherType = t ∧ other = reconcileErr) ∧
      (∀ otherType,
        Effect.updateShootStatusReconcileSuccess otherType
          ∉ (ReconcileShoot im o shoot key).1) ∧
      (∀ e, o.updateShootStatusReconcileError t reconcileErr = some e →
        (ReconcileShoot im o shoot key).2 = some e) ∧
      (o.updateShootStatusReconcileError t reconcileErr = none →
        (ReconcileShoot im o shoot key).2 = some (errorsNew reconcileErr.Description) ∧
        (errorsNew reconcileErr.Description).Message = reconcileErr.Description)) := by
  constructor
  · intro deleteErr hmem hstart hfail
    rw [deleteStart_mem_ReconcileShoot im o shoot key hmem,
      deleteSequence_of_start_ok_delete_fails o deleteErr hstart hfail]
    refine ⟨by simp, by simp, by simp, ?_, ?_⟩
    · intro e he
      simp [he]
    · intro he
      simp [he, errorsNew]
  · intro t reconcileErr hmem hstart hfail
    rw [(reconcileStart_mem_ReconcileShoot im o shoot key t hmem).2,
      reconcileSequence_of_start_ok_reconcile_fails o t reconcileErr hstart hfail]
    refine ⟨by simp, by simp, by simp, ?_, ?_⟩
    · intro e he
      simp [he]
    · intro he
      simp [he, errorsNew]

theorem ReconcileShoot_records_flow_failure_witness :
    (ReconcileShoot gardenerImports flowsFail changedShoot freshKey).1.count
        (Effect.updateShootStatusReconcileError .Reconcile diskFull) = 1 ∧
    (∀ otherType other,
      Effect.updateShootStatusReconcileError otherType other
        ∈ (ReconcileShoot gardenerImports flowsFail changedShoot freshKey).1 →
      otherType = ShootLastOperationType.Reconcile ∧ other = diskFull) ∧
    (∀ otherType,
      Effect.updateShootStatusReconcileSuccess otherType
        ∉ (ReconcileShoot gardenerImports flowsFail changedShoot freshKey).1) ∧
    (∀ e, flowsFail.updateShootStatusReconcileError .Reconcile diskFull = some e →
      (ReconcileShoot gardenerImports flowsFail changedShoot freshKey).2 = some e) ∧
    (flowsFail.updateShootStatusReconcileError .Reconcile diskFull = none →
      (ReconcileShoot gardenerImports flowsFail changedShoot freshKey).2
        = some (errorsNew diskFull.Description) ∧
      (errorsNew diskFull.Description).Message = diskFull.Description) :=
  (ReconcileShoot_records_flow_failure gardenerImports flowsFail changedShoot freshKey).2
    .Reconcile diskFull (by decide) (by rfl) (by rfl)

/-- C15: in a run of `ReconcileShoot` that reaches a phase sequence, so that
its start status update (`updateShootStatusDeleteStart`, or
`updateShootStatusReconcileStart` with a type `t`) is called, if that update
fails with `e` then `ReconcileShoot` returns exactly `e` and its calls are the
starting event and that update alone: the delegated flow is not invoked and no
further status update is made. -/
theorem ReconcileShoot_start_failure_aborts (im : Imports) (o : Outcomes) (shoot : Shoot)
    (key : String) :
    (∀ e : GoError,
      Effect.updateShootStatusDeleteStart ∈ (ReconcileShoot im o shoot key).1 →
      o.updateShootStatusDeleteStart = some e →
      ReconcileShoot im o shoot key =
        ([Effect.Eventf .Normal .ShootEventDeleting
            ("[" ++ o.operationID ++ "] Deleting Shoot cluster"),
          Effect.updateShootStatusDeleteStart], some e) ∧
      (ReconcileShoot im o shoot key).1.filter isStatusOrDelegate
        = [Effect.updateShootStatusDeleteStart] ∧
      Effect.deleteShoot ∉ (ReconcileShoot im o shoot key).1) ∧
    (∀ (t : ShootLastOperationType) (e : GoError),
      Effect.updateShootStatusReconcileStart t ∈ (ReconcileShoot im o shoot key).1 →
      o.updateShootStatusReconcileStart t = some e →
      ReconcileShoot im o shoot key =
        ([Effect.Eventf .Normal .ShootEventReconciling
            ("[" ++ o.operationID ++ "] Reconciling Shoot cluster state"),
          Effect.updateShootStatusReconcileStart t], some e) ∧
      (ReconcileShoot im o shoot key).1.filter isStatusOrDelegate
        = [Effect.updateShootStatusReconcileStart t] ∧
      (∀ otherType, Effect.reconcileShoot otherType ∉ (ReconcileShoot im o shoot key).1)) := by
  constructor
  · intro e hmem hstart
    have h : ReconcileShoot im o shoot key =
        ([Effect.Eventf .Normal .ShootEventDeleting
            ("[" ++ o.operationID ++ "] Deleting Shoot cluster"),
          Effect.updateShootStatusDeleteStart], some e) := by
      rw [deleteStart_mem_ReconcileShoot im o shoot key hmem]
      unfold deleteSequence
      rw [hstart]
    rw [h]
    simp [isStatusOrDelegate]
  · intro t e hmem hstart
    have h : ReconcileShoot im o shoot key =
        ([Effect.Eventf .Normal .ShootEventReconciling
            ("[" ++ o.operationID ++ "] Reconciling Shoot cluster state"),
          Effect.updateShootStatusReconcileStart t], some e) := by
      rw [(reconcileStart_mem_ReconcileShoot im o shoot key t hmem).2]
      unfold reconcileSequence
      rw [hstart]
    rw [h]
    simp [isStatusOrDelegate]

theorem ReconcileShoot_start_failure_aborts_witness :
    ReconcileShoot gardenerImports startFails terminatingShoot freshKey =
      ([Effect.Eventf .Normal .ShootEventDeleting
          ("[" ++ startFails.operationID ++ "] Deleting Shoot cluster"),
        Effect.updateShootStatusDeleteStart], some conflictError) ∧
    (ReconcileShoot gardenerImports startFails terminatingShoot freshKey).1.filter
        isStatusOrDelegate
      = [Effect.updateShootStatusDeleteStart] ∧
    Effect.deleteShoot ∉ (ReconcileShoot gardenerImports startFails terminatingShoot freshKey).1 :=
  (ReconcileShoot_start_failure_aborts gardenerImports startFails terminatingShoot freshKey).1
    conflictError (by decide) (by rfl)

/-! ## The successful reconciliation -/

/-- C16 (as stated, refuted): when `operation.New` fails for a fresh shoot
without deletion timestamp, `ReconcileShoot` makes no status update and no
`reconcileShoot` call and returns the error, although no status update and no
delegated flow has failed. -/
theorem ReconcileShoot_without_operation_makes_no_call :
    freshShoot.Meta.DeletionTimestamp = none ∧ failedAndUnchanged freshShoot = false ∧
    ReconcileShoot gardenerImports
      { allSucceed with operationNew := some { Message := "seed not found", IsNotFound := false } }
      freshShoot freshKey
      = ([], some { Message := "seed not found", IsNotFound := false }) := by
  refine ⟨by rfl, by rfl, by rfl⟩

/-- C16 (amended): for a shoot without deletion timestamp that is not
failed-and-unchanged, operation initialisation having succeeded, when the
start update, `reconcileShoot` and the success update succeed, the status
updates and delegated flows of `ReconcileShoot` are exactly
`updateShootStatusReconcileStart(t)`, `reconcileShoot(t)`,
`updateShootStatusReconcileSuccess(t)` in that order, with one operation type
`t`, and it returns nil; for a shoot with nil `lastOperation`, `t` is
`Create`. -/
theorem ReconcileShoot_success_sequence (im : Imports) (o : Outcomes) (shoot : Shoot)
    (key : String) (hnew : o.operationNew = none)
    (hfu : failedAndUnchanged shoot = false)
    (hdel : shoot.Meta.DeletionTimestamp = none)
    (hstart : o.updateShootStatusReconcileStart
      (operationTypeOf shoot.Status.LastOperation) = none)
    (hflow : o.reconcileShoot (operationTypeOf shoot.Status.LastOperation) = none)
    (hsuccess : o.updateShootStatusReconcileSuccess
      (operationTypeOf shoot.Status.LastOperation) = none) :
    ReconcileShoot im o shoot key =
      ([Effect.Eventf .Normal .ShootEventReconciling
          ("[" ++ o.operationID ++ "] Reconciling Shoot cluster state"),
        Effect.updateShootStatusReconcileStart (operationTypeOf shoot.Status.LastOperation),
        Effect.reconcileShoot (operationTypeOf shoot.Status.LastOperation),
        Effect.Eventf .Normal .ShootEventReconciled
          ("[" ++ o.operationID ++ "] Reconciled Shoot cluster state"),
        Effect.updateShootStatusReconcileSuccess (operationTypeOf shoot.Status.LastOperation)],
       none) ∧
    (ReconcileShoot im o shoot key).1.filter isStatusOrDelegate =
      [Effect.updateShootStatusReconcileStart (operationTypeOf shoot.Status.LastOperation),
       Effect.reconcileShoot (operationTypeOf shoot.Status.LastOperation),
       Effect.updateShootStatusReconcileSuccess (operationTypeOf shoot.Status.LastOperation)] ∧
    (shoot.Status.LastOperation = none →
      operationTypeOf shoot.Status.LastOperation = ShootLastOperationType.Create) := by
  have h := ReconcileShoot_reconcile_phase im o shoot key hnew hfu hdel
  rw [hstart, hflow, hsuccess] at h
  refine ⟨h, ?_, ?_⟩
  · rw [h]
    simp [isStatusOrDelegate]
  · intro hnil
    rw [hnil]
    rfl

theorem ReconcileShoot_success_sequence_witness :
    ReconcileShoot gardenerImports allSucceed freshShoot freshKey =
      ([Effect.Eventf .Normal .ShootEventReconciling
          ("[" ++ allSucceed.operationID ++ "] Reconciling Shoot cluster state"),
        Effect.updateShootStatusReconcileStart (operationTypeOf freshShoot.Status.LastOperation),
        Effect.reconcileShoot (operationTypeOf freshShoot.Status.LastOperation),
        Effect.Eventf .Normal .ShootEventReconciled
          ("[" ++ allSucceed.operationID ++ "] Reconciled Shoot cluster state"),
        Effect.updateShootStatusReconcileSuccess
          (operationTypeOf freshShoot.Status.LastOperation)],
       none) ∧
    (ReconcileShoot gardenerImports allSucceed freshShoot freshKey).1.filter isStatusOrDelegate =
      [Effect.updateShootStatusReconcileStart (operationTypeOf freshShoot.Status.LastOperation),
       Effect.reconcileShoot (operationTypeOf freshShoot.Status.LastOperation),
       Effect.updateShootStatusReconcileSuccess
         (operationTypeOf freshShoot.Status.LastOperation)] ∧
    (freshShoot.Status.LastOperation = none →
      operationTypeOf freshShoot.Status.LastOperation = ShootLastOperationType.Create) :=
  ReconcileShoot_success_sequence gardenerImports allSucceed freshShoot freshKey
    (by rfl) (by rfl) (by rfl) (by rfl) (by rfl) (by rfl)

/-! ## The operation type -/

theorem operationType_mem_ReconcileShoot (im : Imports) (o : Outcomes) (shoot : Shoot)
    (key : String) (t : ShootLastOperationType)
    (hmem : Effect.updateShootStatusReconcileStart t ∈ (ReconcileShoot im o shoot key).1
      ∨ Effect.reconcileShoot t ∈ (ReconcileShoot im o shoot key).1
      ∨ (∃ lastError, Effect.updateShootStatusReconcileError t lastError
          ∈ (ReconcileShoot im o shoot key).1)
      ∨ Effect.updateShootStatusReconcileSuccess t ∈ (ReconcileShoot im o shoot key).1) :
    t = operationTypeOf shoot.Status.LastOperation := by
  rcases ReconcileShoot_cases im o shoot key with
    ⟨err, _, h⟩ | ⟨_, h⟩ | ⟨_, _, _, h⟩ | ⟨_, _, _, h⟩
  · rw [h] at hmem; simp at hmem
  · rw [h] at hmem; simp at hmem
  · rw [h] at hmem
    unfold deleteSequence at hmem
    cases h1 : o.updateShootStatusDeleteStart with
    | some e => rw [h1] at hmem; simp at hmem
    | none =>
      rw [h1] at hmem
      cases h2 : o.deleteShoot with
      | some e => rw [h2] at hmem; simp at hmem
      | none => rw [h2] at hmem; simp at hmem
  · rw [h] at hmem
    unfold reconcileSequence at hmem
    cases h1 : o.updateShootStatusReconcileStart
        (operationTypeOf shoot.Status.LastOperation) with
    | some e => rw [h1] at hmem; simpa using hmem
    | none =>
      rw [h1] at hmem
      cases h2 : o.reconcileShoot (operationTypeOf shoot.Status.LastOperation) with
      | some e =>
        rw [h2] at hmem
        simpa using hmem
      | none =>
        rw [h2] at hmem
        simpa using hmem

/-- C17: whenever `ReconcileShoot` runs the create-or-reconcile phase sequence,
so that a status update of that sequence or `reconcileShoot` is called with an
operation type `t`: `t` is `Create` if and only if `lastOperation` is nil or
has type `Create` and a state other than `Succeeded`, and `Reconcile`
otherwise; a last operation `{Create, Succeeded}`, `{Reconcile, any state}` or
`{Delete, any state}` gives `Reconcile`; `t` is never `Delete`. -/
theorem ReconcileShoot_operation_type (im : Imports) (o : Outcomes) (shoot : Shoot)
    (key : String) (t : ShootLastOperationType)
    (hmem : Effect.updateShootStatusReconcileStart t ∈ (ReconcileShoot im o shoot key).1
      ∨ Effect.reconcileShoot t ∈ (ReconcileShoot im o shoot key).1
      ∨ (∃ lastError, Effect.updateShootStatusReconcileError t lastError
          ∈ (ReconcileShoot im o shoot key).1)
      ∨ Effect.updateShootStatusReconcileSuccess t ∈ (ReconcileShoot im o shoot key).1) :
    (t = ShootLastOperationType.Create ↔
      (shoot.Status.LastOperation = none
        ∨ ∃ op, shoot.Status.LastOperation = some op
            ∧ op.Type_ = ShootLastOperationType.Create
            ∧ op.State ≠ ShootLastOperationState.Succeeded)) ∧
    (t ≠ ShootLastOperationType.Create → t = ShootLastOperationType.Reconcile) ∧
    (∀ op, shoot.Status.LastOperation = some op →
      (op.Type_ = ShootLastOperationType.Create ∧ op.State = ShootLastOperationState.Succeeded)
        ∨ op.Type_ = ShootLastOperationType.Reconcile
        ∨ op.Type_ = ShootLastOperationType.Delete →
      t = ShootLastOperationType.Reconcile) ∧
    t ≠ ShootLastOperationType.Delete := by
  have ht := operationType_mem_ReconcileShoot im o shoot key t hmem
  subst ht
  cases hlast : shoot.Status.LastOperation with
  | none => simp [operationTypeOf]
  | some op =>
    obtain ⟨ty, st, desc⟩ := op
    cases ty <;> cases st <;> simp [operationTypeOf]

theorem ReconcileShoot_operation_type_witness :
    (ShootLastOperationType.Reconcile = ShootLastOperationType.Create ↔
      (changedShoot.Status.LastOperation = none
        ∨ ∃ op, changedShoot.Status.LastOperation = some op
            ∧ op.Type_ = ShootLastOperationType.Create
            ∧ op.State ≠ ShootLastOperationState.Succeeded)) ∧
    (ShootLastOperationType.Reconcile ≠ ShootLastOperationType.Create →
      ShootLastOperationType.Reconcile = ShootLastOperationType.Reconcile) ∧
    (∀ op, changedShoot.Status.LastOperation = some op →
      (op.Type_ = ShootLastOperationType.Create ∧ op.State = ShootLastOperationState.Succeeded)
        ∨ op.Type_ = ShootLastOperationType.Reconcile
        ∨ op.Type_ = ShootLastOperationType.Delete →
      ShootLastOperationType.Reconcile = ShootLastOperationType.Reconcile) ∧
    ShootLastOperationType.Reconcile ≠ ShootLastOperationType.Delete :=
  ReconcileShoot_operation_type gardenerImports allSucceed changedShoot freshKey .Reconcile
    (Or.inr (Or.inl (by decide)))

/-! ## Resolution of the key -/

/-- C18: for a well-formed key whose lookup in the shoot lister returns a
not-found error, `reconcileShootKey` returns nil and makes no call at all: no
`control.ReconcileShoot`, no `Add`, `AddAfter` or `Forget` on the queue. -/
theorem reconcileShootKey_drops_missing_shoot (im : Imports) (c : Controller)
    (key namespace_ name : String) (err : GoError)
    (hsplit : SplitMetaNamespaceKey key = .ok (namespace_, name))
    (hget : c.shootLister namespace_ name = .error err)
    (hnotfound : err.IsNotFound = true) :
    reconcileShootKey im c key = ([], Completion.Return none) := by
  unfold reconcileShootKey
  simp [hsplit, hget, hnotfound]

theorem reconcileShootKey_drops_missing_shoot_witness :
    reconcileShootKey gardenerImports (controllerOf freshShoot allSucceed) "garden-dev/gone"
      = ([], Completion.Return none) :=
  reconcileShootKey_drops_missing_shoot gardenerImports (controllerOf freshShoot allSucceed)
    "garden-dev/gone" "garden-dev" "gone" { Message := "shoot not found", IsNotFound := true }
    (by rfl) (by rfl) (by rfl)

/-- C19 (as stated, refuted): when the lister fails with an error other than
not-found, `reconcileShootKey` returns that error and makes no call at all; in
particular it does not call `shootQueue.AddAfter`. -/
theorem reconcileShootKey_lister_error_makes_no_call :
    listerError.IsNotFound = false ∧
    reconcileShootKey gardenerImports
      { controllerOf freshShoot allSucceed with shootLister := fun _ _ => .error listerError }
      freshKey
      = ([], Completion.Return (some listerError)) ∧
    ∀ k d, Effect.AddAfter k d ∉ (reconcileShootKey gardenerImports
      { controllerOf freshShoot allSucceed with shootLister := fun _ _ => .error listerError }
      freshKey).1 := by
  have h : reconcileShootKey gardenerImports
      { controllerOf freshShoot allSucceed with shootLister := fun _ _ => .error listerError }
      freshKey
      = ([], Completion.Return (some listerError)) := by rfl
  refine ⟨by rfl, h, ?_⟩
  intro k d
  rw [h]
  simp

/-- C19 (amended): for a key whose resolution fails with an error other than
not-found (the key is malformed, or the lister fails), `reconcileShootKey`
returns that error to its caller and makes no call at all: it does not invoke
`control.ReconcileShoot` and calls neither `AddAfter` nor any other queue
method; rescheduling the key is left to the caller. -/
theorem reconcileShootKey_propagates_resolution_error (im : Imports) (c : Controller)
    (key : String) (err : GoError)
    (hfail : SplitMetaNamespaceKey key = .error err
      ∨ ∃ namespace_ name, SplitMetaNamespaceKey key = .ok (namespace_, name)
          ∧ c.shootLister namespace_ name = .error err ∧ err.IsNotFound = false) :
    reconcileShootKey im c key = ([], Completion.Return (some err)) := by
  unfold reconcileShootKey
  rcases hfail with h | ⟨namespace_, name, hsplit, hget, hnf⟩
  · simp [h]
  · simp [hsplit, hget, hnf]

theorem reconcileShootKey_propagates_resolution_error_witness :
    reconcileShootKey gardenerImports
      { controllerOf freshShoot allSucceed with shootLister := fun _ _ => .error listerError }
      freshKey
      = ([], Completion.Return (some listerError)) :=
  reconcileShootKey_propagates_resolution_error gardenerImports
    { controllerOf freshShoot allSucceed with shootLister := fun _ _ => .error listerError }
    freshKey listerError
    (Or.inr ⟨"garden-dev", "crazy-botany", by rfl, by rfl, by rfl⟩)

/-! ## The divisor of the remainder -/

/-- C20: for every configuration whose `SyncPeriod` is strictly positive and
every metadata and flag value, the effective period, by whose nanoseconds the
success path of `scheduleNextSync` divides, is strictly positive: it is the
configured `SyncPeriod` or an override of at least one minute; the remainder
does not divide by zero and `scheduleNextSync` returns a delay. -/
theorem scheduleNextSync_divisor_positive (im : Imports) (now : Int) (objectMeta : ObjectMeta)
    (config : ShootControllerConfiguration) (respect : Bool)
    (hr : config.RespectSyncPeriodOverwrite = some respect)
    (hpos : 0 < config.SyncPeriod) :
    0 < effectiveSyncPeriod im objectMeta config respect ∧
    (effectiveSyncPeriod im objectMeta config respect = config.SyncPeriod
      ∨ Minute ≤ effectiveSyncPeriod im objectMeta config respect) ∧
    remInt64 (subInt64 now objectMeta.CreationTimestamp)
      (effectiveSyncPeriod im objectMeta config respect) ≠ none ∧
    (∃ d, scheduleNextSync im now objectMeta false config = some d) := by
  have hcases : effectiveSyncPeriod im objectMeta config respect = config.SyncPeriod
      ∨ Minute ≤ effectiveSyncPeriod im objectMeta config respect := by
    unfold effectiveSyncPeriod
    cases hl : objectMeta.Annotations.lookup im.ShootSyncPeriod with
    | none => exact Or.inl rfl
    | some v =>
      cases respect with
      | false => exact Or.inl rfl
      | true =>
        cases hparse : im.ParseDuration v with
        | error e =>
          left
          simp [hparse]
        | ok d =>
          by_cases hd : d ≥ Minute
          · right
            simp [hparse, hd]
          · left
            simp [hparse, hd]
  have hp : 0 < effectiveSyncPeriod im objectMeta config respect := by
    rcases hcases with h | h
    · rw [h]; exact hpos
    · unfold Minute at h
      omega
  have hne : effectiveSyncPeriod im objectMeta config respect ≠ 0 := by omega
  refine ⟨hp, hcases, ?_, ?_⟩
  · simp [remInt64, hne]
  · rw [scheduleNextSync_success im now objectMeta config respect hr, if_neg hne]
    exact ⟨_, rfl⟩

theorem scheduleNextSync_divisor_positive_witness :
    0 < effectiveSyncPeriod gardenerImports
        { freshShoot.Meta with Annotations := [("shoot.garden.sapcloud.io/sync-period", "0s")] }
        hourlyConfig true ∧
    (effectiveSyncPeriod gardenerImports
        { freshShoot.Meta with Annotations := [("shoot.garden.sapcloud.io/sync-period", "0s")] }
        hourlyConfig true = hourlyConfig.SyncPeriod
      ∨ Minute ≤ effectiveSyncPeriod gardenerImports
        { freshShoot.Meta with Annotations := [("shoot.garden.sapcloud.io/sync-period", "0s")] }
        hourlyConfig true) ∧
    remInt64 (subInt64 1520000001000000000
        ({ freshShoot.Meta with
            Annotations := [("shoot.garden.sapcloud.io/sync-period", "0s")] }
          : ObjectMeta).CreationTimestamp)
      (effectiveSyncPeriod gardenerImports
        { freshShoot.Meta with Annotations := [("shoot.garden.sapcloud.io/sync-period", "0s")] }
        hourlyConfig true) ≠ none ∧
    (∃ d, scheduleNextSync gardenerImports 1520000001000000000
        { freshShoot.Meta with Annotations := [("shoot.garden.sapcloud.io/sync-period", "0s")] }
        false hourlyConfig = some d) :=
  scheduleNextSync_divisor_positive gardenerImports 1520000001000000000
    { freshShoot.Meta with Annotations := [("shoot.garden.sapcloud.io/sync-period", "0s")] }
    hourlyConfig true (by rfl) (by decide)

/-! ## The delay is never zero -/

/-- C21: for every effective period `p > 0`, every creation time and every
current instant, with no overflow (the difference `now - creationTime` and the
delay fit an `int64`), `scheduleNextSync` with `errorOccured = false` returns
a strictly positive duration, of at least one nanosecond; when
`now - creationTime` is an exact multiple of `p` the result is the full period
`p`, not zero. -/
theorem scheduleNextSync_delay_positive (im : Imports) (now : Int) (objectMeta : ObjectMeta)
    (config : ShootControllerConfiguration) (respect : Bool) (p : Int)
    (hr : config.RespectSyncPeriodOverwrite = some respect)
    (hp : effectiveSyncPeriod im objectMeta config respect = p)
    (hpos : 0 < p)
    (hlow : minInt64 ≤ now - objectMeta.CreationTimestamp)
    (hhigh : now - objectMeta.CreationTimestamp ≤ maxInt64)
    (hres : p - Int.tmod (now - objectMeta.CreationTimestamp) p ≤ maxInt64) :
    ∃ d, scheduleNextSync im now objectMeta false config = some d ∧
      0 < d ∧ 1 ≤ d ∧
      d = p - Int.tmod (now - objectMeta.CreationTimestamp) p ∧
      (p ∣ now - objectMeta.CreationTimestamp → d = p) := by
  have hne : p ≠ 0 := by omega
  have hsub : subInt64 now objectMeta.CreationTimestamp = now - objectMeta.CreationTimestamp := by
    unfold subInt64
    exact wrapInt64_eq_self hlow hhigh
  have hlt : Int.tmod (now - objectMeta.CreationTimestamp) p < p := Int.tmod_lt_of_pos _ hpos
  have hwrap : wrapInt64 (p - Int.tmod (now - objectMeta.CreationTimestamp) p)
      = p - Int.tmod (now - objectMeta.CreationTimestamp) p := by
    apply wrapInt64_eq_self _ hres
    unfold minInt64
    omega
  refine ⟨p - Int.tmod (now - objectMeta.CreationTimestamp) p, ?_, by omega, by omega, rfl, ?_⟩
  · rw [scheduleNextSync_success im now objectMeta config respect hr, hp, if_neg hne, hsub,
      hwrap]
  · intro hdvd
    rw [Int.tmod_eq_zero_of_dvd hdvd]
    omega

theorem scheduleNextSync_delay_positive_witness :
    ∃ d, scheduleNextSync gardenerImports 1520007200000000000 freshShoot.Meta false hourlyConfig
        = some d ∧
      0 < d ∧ 1 ≤ d ∧
      d = 3600000000000
        - Int.tmod (1520007200000000000 - freshShoot.Meta.CreationTimestamp) 3600000000000 ∧
      ((3600000000000 : Int) ∣ 1520007200000000000 - freshShoot.Meta.CreationTimestamp →
        d = 3600000000000) :=
  scheduleNextSync_delay_positive gardenerImports 1520007200000000000 freshShoot.Meta
    hourlyConfig true 3600000000000 (by rfl) (by rfl) (by decide) (by decide) (by decide)
    (by decide)

/-! ## Failure of the operation initialisation -/

/-- C22: when `operation.New` fails with `e`, `ReconcileShoot` returns `e` for
every shoot without any call (no event, no status update, no delegated flow),
also for a shoot that the policy would skip (failed-and-unchanged, unconfirmed
deletion); `reconcileShootKey`, for a key that resolves to a shoot on which it
calls `ReconcileShoot`, then re-inserts the key after the configured
`RetrySyncPeriod`, whereas the same shoot skipped by policy after a successful
initialisation is re-inserted after the success-path delay. -/
theorem ReconcileShoot_operation_failure_precedes_policy (im : Imports) (o : Outcomes)
    (e : GoError) (hnew : o.operationNew = some e) :
    (∀ (shoot : Shoot) (key : String), ReconcileShoot im o shoot key = ([], some e)) ∧
    (∀ (c : Controller) (key namespace_ name : String) (shoot : Shoot) (retry : Int),
      c.control = o →
      SplitMetaNamespaceKey key = .ok (namespace_, name) →
      c.shootLister namespace_ name = .ok shoot →
      ¬ (shoot.Meta.DeletionTimestamp ≠ none
        ∧ hasFinalizer shoot.Meta im.GardenerName = false) →
      c.config.RetrySyncPeriod = some retry →
      reconcileShootKey im c key =
        ([Effect.ReconcileShoot shoot key, Effect.AddAfter key retry],
          Completion.Return none) ∧
      ∀ (succeeding : Outcomes) (d : Int), succeeding.operationNew = none →
        (failedAndUnchanged shoot = true
          ∨ (shoot.Meta.DeletionTimestamp ≠ none
            ∧ ( HasAnnotation shoot.Meta im.ConfirmationDeletionTimestamp = false
              ∨ CheckConfirmationDeletionTimestampValid im shoot.Meta = false))) →
        scheduleNextSync im c.now shoot.Meta false c.config = some d →
        reconcileShootKey im { c with control := succeeding } key =
          ([Effect.ReconcileShoot shoot key, Effect.AddAfter key d],
            Completion.Return none)) := by
  refine ⟨fun shoot key => ReconcileShoot_operationNew_fails im o shoot key e hnew, ?_⟩
  intro c key namespace_ name shoot retry hc hsplit hget hnot hretry
  have hcond : (shoot.Meta.DeletionTimestamp.isSome
      && !hasFinalizer shoot.Meta im.GardenerName) = false := by
    cases hdel : shoot.Meta.DeletionTimestamp with
    | none => simp
    | some T =>
      cases hfin : hasFinalizer shoot.Meta im.GardenerName with
      | true => simp
      | false => exact absurd ⟨by simp [hdel], hfin⟩ hnot
  constructor
  · have hrun := reconcileShootKey_reconciles im c key namespace_ name shoot hsplit hget hcond
    rw [hc, ReconcileShoot_operationNew_fails im o shoot key e hnew] at hrun
    have hs : scheduleNextSync im c.now shoot.Meta (some e).isSome c.config = some retry := by
      simp [scheduleNextSync, hretry]
    simp only [hs] at hrun
    simpa using hrun
  · intro succeeding d hok hskip hd
    have hskipped : ReconcileShoot im succeeding shoot key = ([], none) := by
      rcases hskip with hfu | ⟨hdel, hun⟩
      · exact ReconcileShoot_failedAndUnchanged im succeeding shoot key hok hfu
      · apply ReconcileShoot_unconfirmed im succeeding shoot key hok _ hun
        cases hd2 : shoot.Meta.DeletionTimestamp with
        | none => exact absurd hd2 hdel
        | some T => rfl
    have hrun := reconcileShootKey_reconciles im { c with control := succeeding } key
      namespace_ name shoot hsplit hget hcond
    simp only [hskipped] at hrun
    have hs : scheduleNextSync im c.now shoot.Meta (none : Option GoError).isSome c.config
        = some d := by
      simpa using hd
    simp only [hs] at hrun
    simpa using hrun

theorem ReconcileShoot_operation_failure_precedes_policy_witness :
    ReconcileShoot gardenerImports operationFails failedShoot freshKey
      = ([], some { Message := "seed not found", IsNotFound := false }) ∧
    reconcileShootKey gardenerImports (controllerOf failedShoot operationFails) freshKey =
      ([Effect.ReconcileShoot failedShoot freshKey, Effect.AddAfter freshKey 15000000000],
        Completion.Return none) ∧
    reconcileShootKey gardenerImports
        { controllerOf failedShoot operationFails with control := allSucceed } freshKey =
      ([Effect.ReconcileShoot failedShoot freshKey, Effect.AddAfter freshKey 3599000000000],
        Completion.Return none) :=
  ⟨(ReconcileShoot_operation_failure_precedes_policy gardenerImports operationFails
      { Message := "seed not found", IsNotFound := false } (by rfl)).1 failedShoot freshKey,
   ((ReconcileShoot_operation_failure_precedes_policy gardenerImports operationFails
      { Message := "seed not found", IsNotFound := false } (by rfl)).2
      (controllerOf failedShoot operationFails) freshKey "garden-dev" "crazy-botany" failedShoot
      15000000000 (by rfl) (by rfl) (by rfl) (by decide) (by rfl)).1,
   ((ReconcileShoot_operation_failure_precedes_policy gardenerImports operationFails
      { Message := "seed not found", IsNotFound := false } (by rfl)).2
      (controllerOf failedShoot operationFails) freshKey "garden-dev" "crazy-botany" failedShoot
      15000000000 (by rfl) (by rfl) (by rfl) (by decide) (by rfl)).2
      allSucceed 3599000000000 (by rfl) (Or.inl (by rfl)) (by rfl)⟩

end Gardener
